import Mathlib

/-!
Verification of the aggregation logic of `trajectory_data_analysis/utils/nuplan.py`.

The Python module reads per-scenario SQLite databases (tables `category`,
`track`, `lidar_box`) and aggregates them before plotting.  We embed the
aggregation parts shallowly:

* a `DbFile` holds the three tables of one `.db` file, with coordinates and
  velocities as rationals (idealised IEEE doubles);
* Python `dict(zip(keys, vals))` lookup is `dictGet` (later duplicate keys win);
* Python `int()` on a float is `pyInt` (truncation toward zero);
* numpy integer indexing is `npIndex` (negative indices wrap, fully
  out-of-range indices raise IndexError);
* each aggregation loop is a hand-rolled recursion into `Except PyErr`,
  mirroring Python exception propagation;
* the per-record speed `sqrt(vx^2+vy^2+vz^2)` is kept generic as a parameter
  `sp : LidarBox -> V`; theorems instantiate `V := Real` and
  `sp := fun b => Real.sqrt (speedSq b)` so that square roots are exact reals.
  NaN values produced by `0/0` are modelled as `none`.
* `np.random.shuffle` permutes the caller's list in place using the global
  RNG; we model the mutation by having each entry point also return the final
  state of the caller's file list, and the RNG-determined permutation as an
  explicit `shuffle` function argument.
-/

attribute [local semireducible] Rat.add Rat.sub Rat.mul Rat.inv Rat.ofScientific

namespace Nuplan

/-- One row of the `lidar_box` table: the per-frame observation of a track
(position and velocity; `z` is carried but unused, as in the source). -/
structure LidarBox where
  track_token : String
  x : ℚ
  y : ℚ
  z : ℚ
  vx : ℚ
  vy : ℚ
  vz : ℚ
deriving DecidableEq

/-- The content of one scenario `.db` file: the `category` table rows
(token, name), the `track` table rows (token, category_token) and the
`lidar_box` rows. -/
structure DbFile where
  catNames : List (String × String)
  tracks : List (String × String)
  boxes : List LidarBox
deriving DecidableEq

/-- Python exceptions that the aggregation code can raise:
`KeyError` from a dict lookup, `IndexError` from numpy indexing,
`ValueError` from `np.zeros` on a negative dimension. -/
inductive PyErr where
  | keyError : PyErr
  | indexError : PyErr
  | valueError : PyErr
deriving DecidableEq

/-- `dict(zip(keys, vals))[k]`: lookup in an association list where a later
binding of the same key overwrites an earlier one (Python dict semantics). -/
def dictGet (l : List (String × String)) (k : String) : Option String :=
  (l.reverse.find? (fun p => p.1 == k)).map (fun p => p.2)

/-- `dict_category[dict_track[tok]]`: resolve a track token to its category
name through the two dicts built in each function
(`token -> category_token -> name`). `none` models a raised `KeyError`. -/
def resolveCat (f : DbFile) (tok : String) : Option String :=
  (dictGet f.tracks tok).bind (fun ct => dictGet f.catNames ct)

/-- `vx**2 + vy**2 + vz**2` for one lidar box. -/
def speedSq (b : LidarBox) : ℚ :=
  b.vx ^ 2 + b.vy ^ 2 + b.vz ^ 2

/-- Python `int()` applied to a float: truncation toward zero. -/
def pyInt (q : ℚ) : ℤ :=
  if 0 ≤ q then q.floor else q.ceil

/-- `trajectory_file[-3:] == ".db"`: Python's last-three-characters slice
(shorter strings are returned whole, hence never equal to ".db"). -/
def endsWithDb (s : String) : Bool :=
  s.data.drop (s.data.length - 3) == ['.', 'd', 'b']

/-- numpy indexing of an axis of length `n` with a (possibly negative) integer
`i`: indices in `[0, n)` are used directly, indices in `[-n, 0)` wrap around to
`n + i`, anything else raises IndexError (modelled as `none`). -/
def npIndex (n : ℕ) (i : ℤ) : Option ℕ :=
  if 0 ≤ i ∧ i < (n : ℤ) then some i.toNat
  else if -(n : ℤ) ≤ i ∧ i < 0 then some ((n : ℤ) + i).toNat
  else none

/-- The module-level `categories` list of the source. -/
def categories : List String :=
  ["vehicle", "bicycle", "pedestrian", "traffic_cone", "barrier",
   "czone_sign", "generic_object"]

/-- The module-level `dynamic_category` list of the source. -/
def dynamic_category : List String :=
  ["vehicle", "bicycle", "pedestrian", "generic_object"]

/-! ## plot_speed_distribution: the speed grid -/

/-- The state of `speed_map`: each cell `(row, col)` holds the accumulated
`(sum of speeds, count)`.  Cells are addressed after numpy index resolution,
so keys are natural-number pairs. -/
abbrev GridState (V : Type) := ℕ × ℕ → V × ℕ

/-- `np.zeros((matrix_y, matrix_x, 2))`: every cell starts at `(0, 0)`. -/
def gridInit (V : Type) [Zero V] : GridState V :=
  fun _ => (0, 0)

/-- Processing of one `lidar_box` row inside `plot_speed_distribution`
(source lines 224-235): resolve the category (KeyError if unresolvable),
filter on `"vehicle"`, quantize `(x - x_min, y - y_min)` with `int()`,
apply the source's (inverted, never-true) bounds check
`x < 0 and x >= matrix_x and y < 0 and y >= matrix_y`, then update
`speed_map[y, x]` through numpy index resolution. -/
def gridStep {V : Type} [AddCommMonoid V] (sp : LidarBox → V) (x_min y_min : ℚ)
    (mx my : ℕ) (f : DbFile) (s : GridState V) (b : LidarBox) :
    Except PyErr (GridState V) :=
  match resolveCat f b.track_token with
  | none => .error .keyError
  | some category =>
    if category = "vehicle" then
      let cx : ℤ := pyInt (b.x - x_min)
      let cy : ℤ := pyInt (b.y - y_min)
      if cx < 0 ∧ (mx : ℤ) ≤ cx ∧ cy < 0 ∧ (my : ℤ) ≤ cy then .ok s
      else
        match npIndex my cy, npIndex mx cx with
        | some iy, some ix =>
          .ok (Function.update s (iy, ix)
            ((s (iy, ix)).1 + sp b, (s (iy, ix)).2 + 1))
        | _, _ => .error .indexError
    else .ok s

/-- The `for row in df_lidar_box.iterrows()` loop of one file, propagating
exceptions. -/
def gridFold {V : Type} [AddCommMonoid V] (sp : LidarBox → V) (x_min y_min : ℚ)
    (mx my : ℕ) (f : DbFile) :
    GridState V → List LidarBox → Except PyErr (GridState V)
  | s, [] => .ok s
  | s, b :: bs =>
    match gridStep sp x_min y_min mx my f s b with
    | .error e => .error e
    | .ok t => gridFold sp x_min y_min mx my f t bs

/-- The `for trajectory_file in trajectory_files` loop of
`plot_speed_distribution`: skip names not ending in ".db", fold the file's
boxes into the grid, and when `proportion` was given, break once the count of
processed `.db` files reaches `max_iter` (the check happens after a file is
processed, as in the source). -/
def speedLoop {V : Type} [AddCommMonoid V] (sp : LidarBox → V)
    (db : String → DbFile) (x_min y_min : ℚ) (mx my : ℕ)
    (maxIter : Option ℤ) :
    GridState V → ℤ → List String → Except PyErr (GridState V)
  | s, _, [] => .ok s
  | s, cnt, n :: rest =>
    if endsWithDb n then
      match gridFold sp x_min y_min mx my (db n) s (db n).boxes with
      | .error e => .error e
      | .ok t =>
        match maxIter with
        | some m =>
          if m ≤ cnt + 1 then .ok t
          else speedLoop sp db x_min y_min mx my maxIter t (cnt + 1) rest
        | none => speedLoop sp db x_min y_min mx my maxIter t cnt rest
    else speedLoop sp db x_min y_min mx my maxIter s cnt rest

/-- `plot_speed_distribution` up to (and excluding) the rendering calls:
compute `matrix_x = int(x_max - x_min)`, `matrix_y = int(y_max - y_min)`,
allocate `np.zeros` (ValueError on a negative dimension), shuffle the caller's
file list unconditionally, compute `max_iter = int(len * proportion)` when
`proportion` is given, then run the accumulation loop.  Returns the final
state of the caller's `trajectory_files` list together with the accumulated
grid (the `/=` finalization is `finalizeGrid` below). -/
def plot_speed_distribution {V : Type} [AddCommMonoid V] (sp : LidarBox → V)
    (db : String → DbFile) (shuffle : List String → List String)
    (mb : ℚ × ℚ × ℚ × ℚ) (files : List String) (proportion : Option ℚ) :
    List String × Except PyErr (GridState V) :=
  let x_min := mb.1
  let x_max := mb.2.1
  let y_min := mb.2.2.1
  let y_max := mb.2.2.2
  let mx := pyInt (x_max - x_min)
  let my := pyInt (y_max - y_min)
  if mx < 0 ∨ my < 0 then (files, .error .valueError)
  else
    let files2 := shuffle files
    let maxIter := proportion.map (fun p => pyInt ((files2.length : ℚ) * p))
    (files2,
     speedLoop sp db x_min y_min mx.toNat my.toNat maxIter (gridInit V) 0 files2)

/-- `speed_map[:, :, 0] /= speed_map[:, :, 1]` for one cell: the count is a
float that is zero exactly when the natural-number count is zero, in which
case numpy computes `0/0 = NaN` (`none` here; the accumulated sum of a
zero-count cell is `0`, see `c6`). -/
def finalizeCell {V : Type} [DivisionRing V] (c : V × ℕ) : Option V :=
  if c.2 = 0 then none else some (c.1 / (c.2 : V))

/-- The finalized mean-speed grid (before the presentation layer's
`np.flip`). -/
def finalizeGrid {V : Type} [DivisionRing V] (s : GridState V) (p : ℕ × ℕ) :
    Option V :=
  finalizeCell (s p)

/-! ## plot_trajectories -/

/-- The inner `for row in df_lidar_box.iterrows()` loop of
`plot_trajectories` (source lines 88-91): collect `(x, y, category)` per box,
raising KeyError on an unresolvable track token. -/
def trajRowsFile (f : DbFile) : List LidarBox → Except PyErr (List (ℚ × ℚ × String))
  | [] => .ok []
  | b :: bs =>
    match resolveCat f b.track_token with
    | none => .error .keyError
    | some c =>
      match trajRowsFile f bs with
      | .error e => .error e
      | .ok rows => .ok ((b.x, b.y, c) :: rows)

/-- The file loop of `plot_trajectories`: skip names not ending in ".db" and
append each file's rows. -/
def trajLoop (db : String → DbFile) :
    List (ℚ × ℚ × String) → List String → Except PyErr (List (ℚ × ℚ × String))
  | acc, [] => .ok acc
  | acc, n :: rest =>
    if endsWithDb n then
      match trajRowsFile (db n) (db n).boxes with
      | .error e => .error e
      | .ok rows => trajLoop db (acc ++ rows) rest
    else trajLoop db acc rest

/-- `plot_trajectories` up to the plotting calls: when `proportion` is given
the caller's list is shuffled in place and a prefix of length
`int(len * proportion)` is used; otherwise the list is used as is and not
mutated.  Returns the final state of the caller's list and the collected
scatter rows. -/
def plot_trajectories (db : String → DbFile)
    (shuffle : List String → List String) (files : List String)
    (proportion : Option ℚ) :
    List String × Except PyErr (List (ℚ × ℚ × String)) :=
  match proportion with
  | some p =>
    let files2 := shuffle files
    (files2, trajLoop db [] (files2.take (pyInt ((files2.length : ℚ) * p)).toNat))
  | none => (files, trajLoop db [] files)

/-! ## plot_class_proportion -/

/-- `dict(zip(df_category["name"], df_category.index))[name]`: the
name-to-token dict of `plot_class_proportion` (later duplicate names win). -/
def dictNameToken (catNames : List (String × String)) (name : String) :
    Option String :=
  (((catNames.map (fun p => (p.2, p.1))).reverse.find?
      (fun p => p.1 == name)).map (fun p => p.2))

/-- `len(df_track[df_track["category_token"] == dict_category[category]])`:
the per-file count of one requested category, raising KeyError when the
category name is absent from the file's category table. -/
def countCat (f : DbFile) (c : String) : Except PyErr ℕ :=
  match dictNameToken f.catNames c with
  | none => .error .keyError
  | some tok => .ok ((f.tracks.filter (fun tr => tr.2 == tok)).length)

/-- The `for category in dynamic_category` loop writing one file's counts. -/
def catsCounts (f : DbFile) : List String → Except PyErr (List ℕ)
  | [] => .ok []
  | c :: cs =>
    match countCat f c with
    | .error e => .error e
    | .ok n =>
      match catsCounts f cs with
      | .error e => .error e
      | .ok ns => .ok (n :: ns)

/-- The file loop of `plot_class_proportion` for one folder: each `.db` file
OVERWRITES the folder's row (`df_proportion.loc[folder][category] = len(...)`
is an assignment, not an accumulation), so the final row holds the counts of
the last `.db` file only; `none` is the initial all-NaN row. -/
def folderRow (db : String → DbFile) (cats : List String) :
    Option (List ℕ) → List String → Except PyErr (Option (List ℕ))
  | r, [] => .ok r
  | r, n :: rest =>
    if endsWithDb n then
      match catsCounts (db n) cats with
      | .error e => .error e
      | .ok counts => folderRow db cats (some counts) rest
    else folderRow db cats r rest

/-- The folder loop of `plot_class_proportion`. -/
def classPropLoop (db : String → String → DbFile) (proportion : Option ℚ)
    (shuffle : List String → List String) :
    List (String × List String) → Except PyErr (List (String × Option (List ℕ)))
  | [] => .ok []
  | (folder, fl) :: rest =>
    let subset :=
      match proportion with
      | some p => (shuffle fl).take (pyInt (((shuffle fl).length : ℚ) * p)).toNat
      | none => fl
    match folderRow (db folder) dynamic_category none subset with
    | .error e => .error e
    | .ok r =>
      match classPropLoop db proportion shuffle rest with
      | .error e => .error e
      | .ok rows => .ok ((folder, r) :: rows)

/-- `plot_class_proportion` up to the division and plotting: per folder it
shuffles that folder's file list in place when `proportion` is given.
Returns the final state of the caller's lists and the per-folder rows. -/
def plot_class_proportion (db : String → String → DbFile)
    (shuffle : List String → List String) (folders : List String)
    (filesLists : List (List String)) (proportion : Option ℚ) :
    List (List String) × Except PyErr (List (String × Option (List ℕ))) :=
  ((match proportion with
    | some _ => filesLists.map shuffle
    | none => filesLists),
   classPropLoop db proportion shuffle (folders.zip filesLists))

/-- IEEE float division as used on the counts:
`0/0` is NaN (modelled `none`); in this module the divisor is zero only with a
zero numerator. -/
def pyDiv (a b : ℚ) : Option ℚ :=
  if b = 0 then none else some (a / b)

/-- `df_proportion.div(df_proportion.sum(axis=1), axis=0)` on one row of
counts. -/
def rowNormalize (counts : List ℕ) : List (Option ℚ) :=
  counts.map (fun (c : ℕ) => pyDiv (c : ℚ) ((counts.sum : ℕ) : ℚ))

/-! ## plot_mean_speed_distribution -/

/-- The groups of `df_lidar_box.groupby("track_token")`: the distinct track
tokens occurring in the file's boxes (pandas orders groups by sorted key; only
the set matters here, the spec leaves the output order unspecified). -/
def distinctTracks (boxes : List LidarBox) : List String :=
  (boxes.map (fun b => b.track_token)).dedup

/-- The frames of one track in one file. -/
def trackBoxes (boxes : List LidarBox) (t : String) : List LidarBox :=
  boxes.filter (fun b => b.track_token == t)

/-- The `for i, speed in enumerate(mean_speed)` loop (source lines 176-179):
one output row `(folder, category, mean speed)` per group of the groupby,
where the mean is the group's sum of per-frame speeds over its size, and the
category lookup raises KeyError on an unresolvable token. -/
def meanRowsLoop {V : Type} [DivisionRing V] (sp : LidarBox → V)
    (folder : String) (f : DbFile) :
    List String → Except PyErr (List (String × String × V))
  | [] => .ok []
  | t :: ts =>
    match resolveCat f t with
    | none => .error .keyError
    | some c =>
      match meanRowsLoop sp folder f ts with
      | .error e => .error e
      | .ok rows =>
        .ok ((folder, c,
          ((trackBoxes f.boxes t).map sp).sum / ((trackBoxes f.boxes t).length : V))
          :: rows)

/-- The per-file `speeds` rows of `plot_mean_speed_distribution`. -/
def meanSpeedRows {V : Type} [DivisionRing V] (sp : LidarBox → V)
    (folder : String) (f : DbFile) :
    Except PyErr (List (String × String × V)) :=
  meanRowsLoop sp folder f (distinctTracks f.boxes)

/-- The file loop of `plot_mean_speed_distribution` for one folder: skip
names not ending in ".db" and append each file's rows. -/
def meanFileLoop {V : Type} [DivisionRing V] (sp : LidarBox → V)
    (db : String → DbFile) (folder : String) :
    List (String × String × V) → List String →
    Except PyErr (List (String × String × V))
  | acc, [] => .ok acc
  | acc, n :: rest =>
    if endsWithDb n then
      match meanSpeedRows sp folder (db n) with
      | .error e => .error e
      | .ok rows => meanFileLoop sp db folder (acc ++ rows) rest
    else meanFileLoop sp db folder acc rest

/-! ## Specification-side counting definitions (for claim C3) -/

/-- The category a track-table row resolves to through the file's
token-to-name dict. -/
def trackResolvedCat (f : DbFile) (tr : String × String) : Option String :=
  dictGet f.catNames tr.2

/-- Whether a track-table row resolves to a category in `cats`. -/
def resolvedIn (f : DbFile) (cats : List String) (tr : String × String) : Bool :=
  match trackResolvedCat f tr with
  | some c => cats.contains c
  | none => false

/-- Specification count: the number of track-table rows of one file whose
resolved category equals `c`. -/
def specCountCat (f : DbFile) (c : String) : ℕ :=
  (f.tracks.filter (fun tr => trackResolvedCat f tr == some c)).length

/-- Specification count for a whole group: the number of tracks, over all
`.db` files of the group, whose resolved category is in `cats` (track tokens
are globally unique in the dataset, so rows are distinct tracks). -/
def specGroupCount (db : String → DbFile) (cats : List String)
    (files : List String) : ℕ :=
  (((files.filter (fun n => endsWithDb n)).map
    (fun n => ((db n).tracks.filter (resolvedIn (db n) cats)).length)).sum)

/-- Whether one lidar box of file `f` contributes to grid cell `p`: it must
resolve to "vehicle", survive the (never-true) inverted bounds check, and its
quantized coordinates must numpy-resolve to `p`. -/
def hitB (x_min y_min : ℚ) (mx my : ℕ) (f : DbFile) (p : ℕ × ℕ)
    (b : LidarBox) : Bool :=
  match resolveCat f b.track_token with
  | none => false
  | some c =>
    if c = "vehicle" then
      if pyInt (b.x - x_min) < 0 ∧ (mx : ℤ) ≤ pyInt (b.x - x_min)
          ∧ pyInt (b.y - y_min) < 0 ∧ (my : ℤ) ≤ pyInt (b.y - y_min) then false
      else
        decide (npIndex my (pyInt (b.y - y_min)) = some p.1
          ∧ npIndex mx (pyInt (b.x - x_min)) = some p.2)
    else false

/-! ## Concrete fixtures used by the witnesses and counterexamples -/

/-- A lidar box lying outside the map boundary `(0, 5, 0, 5)` on the x axis. -/
def boxC1 : LidarBox := ⟨"t1", -3/2, 2, 0, 3, 4, 0⟩

/-- A one-file dataset containing only `boxC1`, a resolvable vehicle. -/
def dbC1 : String → DbFile :=
  fun _ => ⟨[("cv", "vehicle")], [("t1", "cv")], [boxC1]⟩

/-- An entirely empty dataset. -/
def dbEmpty : String → DbFile := fun _ => ⟨[], [], []⟩

/-- The spec's example record: a vehicle at `(5, 5)` with velocity
`(3, 4, 0)`. -/
def boxC5 : LidarBox := ⟨"t1", 5, 5, 0, 3, 4, 0⟩

/-- A one-file dataset containing only `boxC5`. -/
def dbC5 : String → DbFile :=
  fun _ => ⟨[("cv", "vehicle")], [("t1", "cv")], [boxC5]⟩

/-- A file with the four dynamic categories and two vehicle tracks. -/
def fileA3 : DbFile :=
  ⟨[("cv", "vehicle"), ("cb", "bicycle"), ("cp", "pedestrian"),
    ("cg", "generic_object")],
   [("t1", "cv"), ("t2", "cv")], []⟩

/-- A file with the four dynamic categories and one vehicle track. -/
def fileB3 : DbFile :=
  ⟨[("cv", "vehicle"), ("cb", "bicycle"), ("cp", "pedestrian"),
    ("cg", "generic_object")],
   [("t3", "cv")], []⟩

/-- A two-file group: `a.db` is `fileA3`, every other name is `fileB3`. -/
def dbC3 : String → DbFile := fun n => if n = "a.db" then fileA3 else fileB3

/-- A dataset whose single file holds one resolvable vehicle box at
`(1/2, 2)`. -/
def dbC7 : String → DbFile :=
  fun _ => ⟨[("cv", "vehicle")], [("t1", "cv")], [⟨"t1", 1/2, 2, 0, 0, 0, 0⟩]⟩

/-- A file holding one resolvable vehicle box at `(1/2, 1/2)` with zero
velocity. -/
def fileA8 : DbFile :=
  ⟨[("cv", "vehicle")], [("t1", "cv")], [⟨"t1", 1/2, 1/2, 0, 0, 0, 0⟩]⟩

/-- A two-file group for the purity counterexample: `a.db` holds one vehicle
box, `b.db` holds none. -/
def dbC8 : String → DbFile :=
  fun n => if n = "a.db" then fileA8 else ⟨[("cv", "vehicle")], [], []⟩

/-- A file whose single box refers to a track token absent from the track
table. -/
def fileC4 : DbFile :=
  ⟨[("cv", "vehicle")], [("t1", "cv")], [⟨"ghost", 0, 0, 0, 0, 0, 0⟩]⟩

/-- A file with one track observed in two frames (speeds 5 and 0). -/
def fileC2 : DbFile :=
  ⟨[("cv", "vehicle")], [("t1", "cv")],
   [⟨"t1", 0, 0, 0, 3, 4, 0⟩, ⟨"t1", 1, 1, 0, 0, 0, 0⟩]⟩

/-- All lidar boxes of the `.db` files of one folder's file list, in
processing order: the group's materialized record collection (the
concatenation that `plot_mean_speed_distribution` effectively iterates). -/
def groupBoxes (db : String → DbFile) : List String → List LidarBox
  | [] => []
  | n :: rest =>
    (if endsWithDb n then (db n).boxes else []) ++ groupBoxes db rest

/-- A second file for the group witness: one track with one frame. -/
def fileC2b : DbFile :=
  ⟨[("cv", "vehicle")], [("t2", "cv")], [⟨"t2", 1, 1, 0, 0, 0, 0⟩]⟩

/-- A two-file group: `a.db` is `fileC2`, every other name is `fileC2b`. -/
def dbC2g : String → DbFile := fun n => if n = "a.db" then fileC2 else fileC2b

/-! ## Error-absorption lemmas -/

/-- If any box of the file has an unresolvable track token, the
`plot_trajectories` row collection raises KeyError (the only exception this
loop can raise), producing no partial output. -/
theorem trajRowsFile_unresolved (f : DbFile) :
    ∀ (bs : List LidarBox) (b : LidarBox), b ∈ bs →
      resolveCat f b.track_token = none →
      trajRowsFile f bs = .error .keyError := by
  intro bs
  induction bs with
  | nil => intro b hb; exact absurd hb (List.not_mem_nil b)
  | cons c cs ih =>
    intro b hb hr
    rcases List.mem_cons.mp hb with h | h
    · subst h
      simp only [trajRowsFile, hr]
    · cases hc : resolveCat f c.track_token with
      | none => simp only [trajRowsFile, hc]
      | some cat =>
        simp only [trajRowsFile, hc, ih b h hr]

/-- If any box of the file has an unresolvable track token, the speed-grid
accumulation of `plot_speed_distribution` cannot succeed. -/
theorem gridFold_unresolved {V : Type} [AddCommMonoid V] (sp : LidarBox → V)
    (x_min y_min : ℚ) (mx my : ℕ) (f : DbFile) :
    ∀ (bs : List LidarBox) (b : LidarBox), b ∈ bs →
      resolveCat f b.track_token = none →
      ∀ (s t : GridState V),
        gridFold sp x_min y_min mx my f s bs ≠ .ok t := by
  intro bs
  induction bs with
  | nil => intro b hb; exact absurd hb (List.not_mem_nil b)
  | cons c cs ih =>
    intro b hb hr s t
    rcases List.mem_cons.mp hb with h | h
    · subst h
      simp only [gridFold, gridStep, hr]
      exact fun h => Except.noConfusion h
    · cases hstep : gridStep sp x_min y_min mx my f s c with
      | error e =>
        simp only [gridFold, hstep]
        exact fun h => Except.noConfusion h
      | ok s1 =>
        simp only [gridFold, hstep]
        exact ih b h hr s1 t

/-- If any track token in the groupby keys is unresolvable, the mean-speed
row loop raises KeyError. -/
theorem meanRowsLoop_unresolved {V : Type} [DivisionRing V]
    (sp : LidarBox → V) (folder : String) (f : DbFile) :
    ∀ (ts : List String) (t : String), t ∈ ts → resolveCat f t = none →
      meanRowsLoop sp folder f ts = .error .keyError := by
  intro ts
  induction ts with
  | nil => intro t ht; exact absurd ht (List.not_mem_nil t)
  | cons c cs ih =>
    intro t ht hr
    rcases List.mem_cons.mp ht with h | h
    · subst h
      simp only [meanRowsLoop, hr]
    · cases hc : resolveCat f c with
      | none => simp only [meanRowsLoop, hc]
      | some cat =>
        simp only [meanRowsLoop, hc, ih t h hr]

/-! ## Skipping of non-db file names -/

/-- Removing a non-`.db` entry anywhere in the file list leaves the
`plot_trajectories` loop unchanged. -/
theorem trajLoop_skip (db : String → DbFile) (bad : String)
    (hbad : endsWithDb bad = false) :
    ∀ (l1 l2 : List String) (acc : List (ℚ × ℚ × String)),
      trajLoop db acc (l1 ++ bad :: l2) = trajLoop db acc (l1 ++ l2) := by
  intro l1
  induction l1 with
  | nil =>
    intro l2 acc
    simp only [List.nil_append, trajLoop, hbad, Bool.false_eq_true, if_false]
  | cons n ns ih =>
    intro l2 acc
    simp only [List.cons_append, trajLoop]
    by_cases h : endsWithDb n = true
    · simp only [h, if_true]
      cases hres : trajRowsFile (db n) (db n).boxes with
      | error e => rfl
      | ok rows => exact ih l2 (acc ++ rows)
    · simp only [h, if_false]
      exact ih l2 acc

/-- Removing a non-`.db` entry anywhere in the file list leaves the
`plot_class_proportion` row loop unchanged. -/
theorem folderRow_skip (db : String → DbFile) (cats : List String)
    (bad : String) (hbad : endsWithDb bad = false) :
    ∀ (l1 l2 : List String) (r : Option (List ℕ)),
      folderRow db cats r (l1 ++ bad :: l2) = folderRow db cats r (l1 ++ l2) := by
  intro l1
  induction l1 with
  | nil =>
    intro l2 r
    simp only [List.nil_append, folderRow, hbad, Bool.false_eq_true, if_false]
  | cons n ns ih =>
    intro l2 r
    simp only [List.cons_append, folderRow]
    by_cases h : endsWithDb n = true
    · simp only [h, if_true]
      cases hres : catsCounts (db n) cats with
      | error e => rfl
      | ok counts => exact ih l2 (some counts)
    · simp only [h, if_false]
      exact ih l2 r

/-- Removing a non-`.db` entry anywhere in the file list leaves the
`plot_mean_speed_distribution` file loop unchanged. -/
theorem meanFileLoop_skip {V : Type} [DivisionRing V] (sp : LidarBox → V)
    (db : String → DbFile) (folder : String) (bad : String)
    (hbad : endsWithDb bad = false) :
    ∀ (l1 l2 : List String) (acc : List (String × String × V)),
      meanFileLoop sp db folder acc (l1 ++ bad :: l2)
        = meanFileLoop sp db folder acc (l1 ++ l2) := by
  intro l1
  induction l1 with
  | nil =>
    intro l2 acc
    simp only [List.nil_append, meanFileLoop, hbad, Bool.false_eq_true, if_false]
  | cons n ns ih =>
    intro l2 acc
    simp only [List.cons_append, meanFileLoop]
    by_cases h : endsWithDb n = true
    · simp only [h, if_true]
      cases hres : meanSpeedRows sp folder (db n) with
      | error e => rfl
      | ok rows => exact ih l2 (acc ++ rows)
    · simp only [h, if_false]
      exact ih l2 acc

/-- Removing a non-`.db` entry anywhere in the file list leaves the
`plot_speed_distribution` loop unchanged (in particular the skipped entry
does not increment the `cnt` counter used for the `max_iter` break). -/
theorem speedLoop_skip {V : Type} [AddCommMonoid V] (sp : LidarBox → V)
    (db : String → DbFile) (x_min y_min : ℚ) (mx my : ℕ)
    (maxIter : Option ℤ) (bad : String) (hbad : endsWithDb bad = false) :
    ∀ (l1 l2 : List String) (s : GridState V) (cnt : ℤ),
      speedLoop sp db x_min y_min mx my maxIter s cnt (l1 ++ bad :: l2)
        = speedLoop sp db x_min y_min mx my maxIter s cnt (l1 ++ l2) := by
  intro l1
  induction l1 with
  | nil =>
    intro l2 s cnt
    simp only [List.nil_append, speedLoop, hbad, Bool.false_eq_true, if_false]
  | cons n ns ih =>
    intro l2 s cnt
    simp only [List.cons_append, speedLoop]
    by_cases h : endsWithDb n = true
    · simp only [h, if_true]
      cases hres : gridFold sp x_min y_min mx my (db n) s (db n).boxes with
      | error e => rfl
      | ok t =>
        cases maxIter with
        | none => exact ih l2 t cnt
        | some m =>
          by_cases hm : m ≤ cnt + 1
          · simp only [hm, if_true]
          · simp only [hm, if_false]
            exact ih l2 t (cnt + 1)
    · simp only [h, if_false]
      exact ih l2 s cnt

/-! ## Basic lemmas about the primitive operations -/

/-- `pyInt` agrees with the floor on nonnegative arguments (Python `int()`
truncates toward zero, which is the floor there). -/
theorem pyInt_eq_floor {q : ℚ} (h : 0 ≤ q) : pyInt q = ⌊q⌋ := by
  simp only [pyInt, if_pos h, Rat.floor_def', Rat.floor_def]

/-- A successful per-file fold adds to each cell exactly the speeds and the
count of the file's boxes hitting that cell. -/
theorem gridFold_char {V : Type} [AddCommMonoid V] (sp : LidarBox → V)
    (x_min y_min : ℚ) (mx my : ℕ) (f : DbFile) :
    ∀ (bs : List LidarBox) (s t : GridState V),
      gridFold sp x_min y_min mx my f s bs = .ok t →
      ∀ p, t p
        = ((s p).1 + ((bs.filter (hitB x_min y_min mx my f p)).map sp).sum,
           (s p).2 + (bs.filter (hitB x_min y_min mx my f p)).length) := by
  intro bs
  induction bs with
  | nil =>
    intro s t h p
    simp only [gridFold] at h
    rw [← Except.ok.inj h]
    simp
  | cons b bs ih =>
    intro s t h p
    cases hc : resolveCat f b.track_token with
    | none => simp only [gridFold, gridStep, hc] at h; exact absurd h (by simp)
    | some c =>
      simp only [gridFold, gridStep, hc] at h
      by_cases hveh : c = "vehicle"
      · rw [if_pos hveh] at h
        by_cases hskip : pyInt (b.x - x_min) < 0
            ∧ (mx : ℤ) ≤ pyInt (b.x - x_min)
            ∧ pyInt (b.y - y_min) < 0 ∧ (my : ℤ) ≤ pyInt (b.y - y_min)
        · rw [if_pos hskip] at h
          have hhit : hitB x_min y_min mx my f p b = false := by
            simp only [hitB, hc, if_pos hveh, if_pos hskip]
          rw [List.filter_cons_of_neg (by rw [hhit]; exact Bool.false_ne_true)]
          exact ih s t h p
        · rw [if_neg hskip] at h
          cases hy : npIndex my (pyInt (b.y - y_min)) with
          | none => rw [hy] at h; simp at h
          | some iy =>
            cases hx : npIndex mx (pyInt (b.x - x_min)) with
            | none => rw [hy, hx] at h; simp at h
            | some ix =>
              rw [hy, hx] at h
              have hres := ih (Function.update s (iy, ix)
                ((s (iy, ix)).1 + sp b, (s (iy, ix)).2 + 1)) t h p
              by_cases hp : p = (iy, ix)
              · subst hp
                have hhit : hitB x_min y_min mx my f (iy, ix) b = true := by
                  simp only [hitB, hc, if_pos hveh, if_neg hskip, hy, hx]
                  simp
                rw [List.filter_cons_of_pos hhit, List.map_cons,
                  List.sum_cons, List.length_cons]
                rw [hres, Function.update_same]
                simp only [Prod.mk.injEq]
                constructor
                · rw [add_assoc]
                · omega
              · have hhit : hitB x_min y_min mx my f p b = false := by
                  simp only [hitB, hc, if_pos hveh, if_neg hskip, hy, hx]
                  simp only [decide_eq_false_iff_not]
                  rintro ⟨h1, h2⟩
                  apply hp
                  obtain ⟨p1, p2⟩ := p
                  simp only [Option.some.injEq] at h1 h2
                  rw [Prod.mk.injEq]
                  exact ⟨h1.symm, h2.symm⟩
                rw [List.filter_cons_of_neg
                  (by rw [hhit]; exact Bool.false_ne_true)]
                rw [hres, Function.update_noteq hp]
      · rw [if_neg hveh] at h
        have hhit : hitB x_min y_min mx my f p b = false := by
          simp only [hitB, hc, if_neg hveh]
        rw [List.filter_cons_of_neg (by rw [hhit]; exact Bool.false_ne_true)]
        exact ih s t h p

/-- With `proportion = None` every `.db` file is processed: a successful run
adds to each cell, file by file, the speeds and counts of the boxes hitting
that cell. -/
theorem speedLoopNone_char {V : Type} [AddCommMonoid V] (sp : LidarBox → V)
    (db : String → DbFile) (x_min y_min : ℚ) (mx my : ℕ) :
    ∀ (files : List String) (s t : GridState V) (cnt : ℤ),
      speedLoop sp db x_min y_min mx my none s cnt files = .ok t →
      ∀ p, t p
        = ((s p).1 + ((files.filter endsWithDb).map
            (fun n => (((db n).boxes.filter
              (hitB x_min y_min mx my (db n) p)).map sp).sum)).sum,
           (s p).2 + ((files.filter endsWithDb).map
            (fun n => ((db n).boxes.filter
              (hitB x_min y_min mx my (db n) p)).length)).sum) := by
  intro files
  induction files with
  | nil =>
    intro s t cnt h p
    simp only [speedLoop] at h
    rw [← Except.ok.inj h]
    simp
  | cons n ns ih =>
    intro s t cnt h p
    simp only [speedLoop] at h
    by_cases hdb : endsWithDb n = true
    · rw [if_pos hdb] at h
      cases hfold : gridFold sp x_min y_min mx my (db n) s (db n).boxes with
      | error e => rw [hfold] at h; exact absurd h (by simp)
      | ok s1 =>
        simp only [hfold] at h
        have hres := ih s1 t cnt h p
        have hcell := gridFold_char sp x_min y_min mx my (db n)
          (db n).boxes s s1 hfold p
        rw [List.filter_cons_of_pos hdb, List.map_cons, List.map_cons,
          List.sum_cons, List.sum_cons, hres, hcell]
        simp only [Prod.mk.injEq]
        constructor
        · rw [add_assoc]
        · omega
    · rw [if_neg hdb] at h
      rw [List.filter_cons_of_neg hdb]
      exact ih s t cnt h p

/-! ## Mean-speed lemmas -/

/-- A track has a positive number of frames in a file exactly when some box
of the file carries its token. -/
theorem trackBoxes_pos_iff (boxes : List LidarBox) (t : String) :
    0 < (trackBoxes boxes t).length ↔ ∃ b ∈ boxes, b.track_token = t := by
  rw [trackBoxes, List.length_pos, Ne, List.filter_eq_nil_iff]
  push_neg
  constructor
  · rintro ⟨b, hb, h⟩
    exact ⟨b, hb, by simpa using h⟩
  · rintro ⟨b, hb, h⟩
    exact ⟨b, hb, by simpa using h⟩

/-- The groupby keys are exactly the tracks with at least one frame. -/
theorem mem_distinctTracks_iff (boxes : List LidarBox) (t : String) :
    t ∈ distinctTracks boxes ↔ 0 < (trackBoxes boxes t).length := by
  rw [distinctTracks, List.mem_dedup, List.mem_map, trackBoxes_pos_iff]

/-- Every groupby key yields exactly one output row of the mean-speed loop,
holding that track's sum of per-frame speeds divided by its frame count. -/
theorem meanRowsLoop_mem_of_mem {V : Type} [DivisionRing V]
    (sp : LidarBox → V) (folder : String) (f : DbFile) :
    ∀ (ts : List String) (rows : List (String × String × V)),
      meanRowsLoop sp folder f ts = .ok rows →
      ∀ t ∈ ts, ∃ c, resolveCat f t = some c ∧
        (folder, c, ((trackBoxes f.boxes t).map sp).sum
          / ((trackBoxes f.boxes t).length : V)) ∈ rows := by
  intro ts
  induction ts with
  | nil => intro rows _ t ht; exact absurd ht (List.not_mem_nil t)
  | cons u us ih =>
    intro rows h t ht
    cases hc : resolveCat f u with
    | none => rw [meanRowsLoop, hc] at h; exact absurd h (by simp)
    | some c =>
      cases hrec : meanRowsLoop sp folder f us with
      | error e =>
        rw [meanRowsLoop, hc, hrec] at h
        exact absurd h (by simp)
      | ok rows0 =>
        rw [meanRowsLoop, hc, hrec] at h
        have hrows := (Except.ok.inj h).symm
        rcases List.mem_cons.mp ht with rfl | hmem
        · exact ⟨c, hc, hrows ▸ List.mem_cons_self _ _⟩
        · obtain ⟨c2, hc2, hm⟩ := ih rows0 hrec t hmem
          exact ⟨c2, hc2, hrows ▸ List.mem_cons_of_mem _ hm⟩

/-- Conversely, every output row of the mean-speed loop comes from a groupby
key and carries that track's mean value and resolved category. -/
theorem meanRowsLoop_mem_inv {V : Type} [DivisionRing V]
    (sp : LidarBox → V) (folder : String) (f : DbFile) :
    ∀ (ts : List String) (rows : List (String × String × V)),
      meanRowsLoop sp folder f ts = .ok rows →
      ∀ r ∈ rows, r.1 = folder ∧ ∃ t ∈ ts, resolveCat f t = some r.2.1 ∧
        r.2.2 = ((trackBoxes f.boxes t).map sp).sum
          / ((trackBoxes f.boxes t).length : V) := by
  intro ts
  induction ts with
  | nil =>
    intro rows h r hr
    rw [meanRowsLoop] at h
    rw [← Except.ok.inj h] at hr
    exact absurd hr (List.not_mem_nil r)
  | cons u us ih =>
    intro rows h r hr
    cases hc : resolveCat f u with
    | none => rw [meanRowsLoop, hc] at h; exact absurd h (by simp)
    | some c =>
      cases hrec : meanRowsLoop sp folder f us with
      | error e =>
        rw [meanRowsLoop, hc, hrec] at h
        exact absurd h (by simp)
      | ok rows0 =>
        rw [meanRowsLoop, hc, hrec] at h
        rw [← Except.ok.inj h] at hr
        rcases List.mem_cons.mp hr with rfl | hmem
        · exact ⟨rfl, u, List.mem_cons_self _ _, hc, rfl⟩
        · obtain ⟨h1, t, htm, h2, h3⟩ := ih rows0 hrec r hmem
          exact ⟨h1, t, List.mem_cons_of_mem _ htm, h2, h3⟩

/-! ## Grid cell evolution and the zero-count invariant -/

/-- Each grid-step leaves a cell unchanged or adds one observation to it. -/
theorem gridStep_cell {V : Type} [AddCommMonoid V] (sp : LidarBox → V)
    (x_min y_min : ℚ) (mx my : ℕ) (f : DbFile) (s t : GridState V)
    (b : LidarBox) (h : gridStep sp x_min y_min mx my f s b = .ok t) :
    ∀ p, t p = s p ∨ ∃ v, t p = ((s p).1 + v, (s p).2 + 1) := by
  intro p
  cases hc : resolveCat f b.track_token with
  | none => simp only [gridStep, hc] at h; exact absurd h (by simp)
  | some c =>
    simp only [gridStep, hc] at h
    by_cases hveh : c = "vehicle"
    · rw [if_pos hveh] at h
      by_cases hskip : pyInt (b.x - x_min) < 0 ∧ (mx : ℤ) ≤ pyInt (b.x - x_min)
          ∧ pyInt (b.y - y_min) < 0 ∧ (my : ℤ) ≤ pyInt (b.y - y_min)
      · rw [if_pos hskip] at h
        left; rw [← Except.ok.inj h]
      · rw [if_neg hskip] at h
        cases hy : npIndex my (pyInt (b.y - y_min)) with
        | none => rw [hy] at h; simp at h
        | some iy =>
          cases hx : npIndex mx (pyInt (b.x - x_min)) with
          | none => rw [hy, hx] at h; simp at h
          | some ix =>
            rw [hy, hx] at h
            simp only at h
            rw [← Except.ok.inj h]
            by_cases hp : p = (iy, ix)
            · subst hp
              right
              exact ⟨sp b, by rw [Function.update_same]⟩
            · left
              rw [Function.update_noteq hp]
    · rw [if_neg hveh] at h
      left; rw [← Except.ok.inj h]

/-- A cell with zero count has zero accumulated sum: preserved by the
per-file fold. -/
theorem gridFold_zero_inv {V : Type} [AddCommMonoid V] (sp : LidarBox → V)
    (x_min y_min : ℚ) (mx my : ℕ) (f : DbFile) :
    ∀ (bs : List LidarBox) (s t : GridState V),
      gridFold sp x_min y_min mx my f s bs = .ok t →
      (∀ p, (s p).2 = 0 → (s p).1 = 0) →
      ∀ p, (t p).2 = 0 → (t p).1 = 0 := by
  intro bs
  induction bs with
  | nil =>
    intro s t h hs
    simp only [gridFold] at h
    rw [← Except.ok.inj h]
    exact hs
  | cons b bs ih =>
    intro s t h hs
    cases hstep : gridStep sp x_min y_min mx my f s b with
    | error e => simp only [gridFold, hstep] at h; exact absurd h (by simp)
    | ok s1 =>
      simp only [gridFold, hstep] at h
      refine ih s1 t h ?_
      intro p hp
      rcases gridStep_cell sp x_min y_min mx my f s s1 b hstep p with
        hcell | ⟨v, hcell⟩
      · rw [hcell] at hp ⊢
        exact hs p hp
      · rw [hcell] at hp
        exact absurd hp (Nat.succ_ne_zero _)

/-- A cell with zero count has zero accumulated sum: preserved by the whole
file loop, for either `proportion` mode. -/
theorem speedLoop_zero_inv {V : Type} [AddCommMonoid V] (sp : LidarBox → V)
    (db : String → DbFile) (x_min y_min : ℚ) (mx my : ℕ)
    (maxIter : Option ℤ) :
    ∀ (files : List String) (s : GridState V) (cnt : ℤ) (t : GridState V),
      speedLoop sp db x_min y_min mx my maxIter s cnt files = .ok t →
      (∀ p, (s p).2 = 0 → (s p).1 = 0) →
      ∀ p, (t p).2 = 0 → (t p).1 = 0 := by
  cases maxIter with
  | none =>
    intro files
    induction files with
    | nil =>
      intro s cnt t h hs
      simp only [speedLoop] at h
      rw [← Except.ok.inj h]
      exact hs
    | cons n ns ih =>
      intro s cnt t h hs
      simp only [speedLoop] at h
      by_cases hdb : endsWithDb n = true
      · rw [if_pos hdb] at h
        cases hfold : gridFold sp x_min y_min mx my (db n) s (db n).boxes with
        | error e => rw [hfold] at h; exact absurd h (by simp)
        | ok s1 =>
          rw [hfold] at h
          exact ih s1 cnt t h
            (gridFold_zero_inv sp x_min y_min mx my (db n) (db n).boxes s s1
              hfold hs)
      · rw [if_neg hdb] at h
        exact ih s cnt t h hs
  | some m =>
    intro files
    induction files with
    | nil =>
      intro s cnt t h hs
      simp only [speedLoop] at h
      rw [← Except.ok.inj h]
      exact hs
    | cons n ns ih =>
      intro s cnt t h hs
      simp only [speedLoop] at h
      by_cases hdb : endsWithDb n = true
      · rw [if_pos hdb] at h
        cases hfold : gridFold sp x_min y_min mx my (db n) s (db n).boxes with
        | error e => rw [hfold] at h; exact absurd h (by simp)
        | ok s1 =>
          simp only [hfold] at h
          have hs1 := gridFold_zero_inv sp x_min y_min mx my (db n)
            (db n).boxes s s1 hfold hs
          by_cases hm : m ≤ cnt + 1
          · rw [if_pos hm] at h
            rw [← Except.ok.inj h]
            exact hs1
          · rw [if_neg hm] at h
            exact ih s1 (cnt + 1) t h hs1
      · rw [if_neg hdb] at h
        exact ih s cnt t h hs

/-- Filtering a track's frames distributes over concatenation. -/
theorem trackBoxes_append (l1 l2 : List LidarBox) (t : String) :
    trackBoxes (l1 ++ l2) t = trackBoxes l1 t ++ trackBoxes l2 t :=
  List.filter_append l1 l2

/-- A box belongs to the group exactly when some processed `.db` file holds
it. -/
theorem mem_groupBoxes {db : String → DbFile} {b : LidarBox} :
    ∀ {files : List String}, b ∈ groupBoxes db files
      ↔ ∃ n ∈ files.filter endsWithDb, b ∈ (db n).boxes := by
  intro files
  induction files with
  | nil => simp [groupBoxes]
  | cons n ns ih =>
    by_cases hdb : endsWithDb n = true
    · rw [groupBoxes, if_pos hdb, List.filter_cons_of_pos hdb]
      rw [List.mem_append, ih]
      constructor
      · rintro (hb | ⟨m, hm, hmb⟩)
        · exact ⟨n, List.mem_cons_self _ _, hb⟩
        · exact ⟨m, List.mem_cons_of_mem _ hm, hmb⟩
      · rintro ⟨m, hm, hmb⟩
        rcases List.mem_cons.mp hm with rfl | hm2
        · exact Or.inl hmb
        · exact Or.inr ⟨m, hm2, hmb⟩
    · rw [groupBoxes, if_neg hdb, List.filter_cons_of_neg hdb,
        List.nil_append]
      exact ih



/-- Under the dataset's referential-integrity guarantee — duplicate-free
processed file names and track tokens not shared across distinct files — a
track's frames in the group are exactly its frames in its own file. -/
theorem trackBoxes_group_single {db : String → DbFile} :
    ∀ (files : List String), (files.filter endsWithDb).Nodup →
      (∀ n1 ∈ files.filter endsWithDb, ∀ n2 ∈ files.filter endsWithDb,
        n1 ≠ n2 → ∀ t : String, 0 < (trackBoxes (db n1).boxes t).length →
          trackBoxes (db n2).boxes t = []) →
      ∀ (n t : String), n ∈ files.filter endsWithDb →
        0 < (trackBoxes (db n).boxes t).length →
        trackBoxes (groupBoxes db files) t = trackBoxes (db n).boxes t := by
  intro files
  induction files with
  | nil =>
    intro _ _ n t hn
    exact absurd hn (List.not_mem_nil n)
  | cons m ms ih =>
    intro hnd hdisj n t hn hpos
    by_cases hdb : endsWithDb m = true
    · rw [List.filter_cons_of_pos hdb] at hn hnd hdisj
      rw [groupBoxes, if_pos hdb, trackBoxes_append]
      rcases List.mem_cons.mp hn with rfl | hn2
      · have hrest : trackBoxes (groupBoxes db ms) t = [] := by
          apply List.filter_eq_nil_iff.mpr
          intro b hb
          obtain ⟨m2, hm2, hmb⟩ := mem_groupBoxes.mp hb
          have hne : n ≠ m2 := by
            intro he
            exact (List.nodup_cons.mp hnd).1 (he ▸ hm2)
          have hempty := hdisj n (List.mem_cons_self _ _) m2
            (List.mem_cons_of_mem _ hm2) hne t hpos
          exact List.filter_eq_nil_iff.mp hempty b hmb
        rw [hrest, List.append_nil]
      · have hne : n ≠ m := by
          intro he
          exact (List.nodup_cons.mp hnd).1 (he ▸ hn2)
        have hm_empty : trackBoxes (db m).boxes t =
            [] := hdisj n (List.mem_cons_of_mem _ hn2) m
          (List.mem_cons_self _ _) hne t hpos
        rw [hm_empty, List.nil_append]
        exact ih (List.nodup_cons.mp hnd).2
          (fun a ha b hb => hdisj a (List.mem_cons_of_mem _ ha) b
            (List.mem_cons_of_mem _ hb))
          n t hn2 hpos
    · rw [List.filter_cons_of_neg hdb] at hn hnd hdisj
      rw [groupBoxes, if_neg hdb, List.nil_append]
      exact ih hnd hdisj n t hn hpos

/-- A successful folder run of `plot_mean_speed_distribution` succeeds on
every processed `.db` file, and its rows are the initial accumulator plus
exactly the per-file rows. -/
theorem meanFileLoop_char {V : Type} [DivisionRing V] (sp : LidarBox → V)
    (db : String → DbFile) (folder : String) :
    ∀ (files : List String) (acc rows : List (String × String × V)),
      meanFileLoop sp db folder acc files = .ok rows →
      (∀ n ∈ files.filter endsWithDb,
        ∃ fr, meanSpeedRows sp folder (db n) = .ok fr)
      ∧ (∀ r, r ∈ rows ↔ r ∈ acc
          ∨ ∃ n ∈ files.filter endsWithDb,
            ∃ fr, meanSpeedRows sp folder (db n) = .ok fr ∧ r ∈ fr) := by
  intro files
  induction files with
  | nil =>
    intro acc rows h
    simp only [meanFileLoop] at h
    constructor
    · intro n hn
      exact absurd hn (List.not_mem_nil n)
    · intro r
      rw [← Except.ok.inj h]
      simp
  | cons n ns ih =>
    intro acc rows h
    simp only [meanFileLoop] at h
    by_cases hdb : endsWithDb n = true
    · rw [if_pos hdb] at h
      cases hmr : meanSpeedRows sp folder (db n) with
      | error e => rw [hmr] at h; exact absurd h (by simp)
      | ok fr =>
        rw [hmr] at h
        have ihh := ih (acc ++ fr) rows h
        constructor
        · intro m hm
          rw [List.filter_cons_of_pos hdb] at hm
          rcases List.mem_cons.mp hm with rfl | hm2
          · exact ⟨fr, hmr⟩
          · exact ihh.1 m hm2
        · intro r
          rw [List.filter_cons_of_pos hdb, ihh.2 r, List.mem_append]
          constructor
          · rintro ((hra | hrf) | ⟨m, hm, fr2, hfr2, hr2⟩)
            · exact Or.inl hra
            · exact Or.inr ⟨n, List.mem_cons_self _ _, fr, hmr, hrf⟩
            · exact Or.inr ⟨m, List.mem_cons_of_mem _ hm, fr2, hfr2, hr2⟩
          · rintro (hra | ⟨m, hm, fr2, hfr2, hr2⟩)
            · exact Or.inl (Or.inl hra)
            · rcases List.mem_cons.mp hm with rfl | hm2
              · rw [hmr] at hfr2
                refine Or.inl (Or.inr ?_)
                rw [Except.ok.inj hfr2]
                exact hr2
              · exact Or.inr ⟨m, hm2, fr2, hfr2, hr2⟩
    · rw [if_neg hdb] at h
      rw [List.filter_cons_of_neg hdb]
      exact ih acc rows h

/-! ## Claim theorems -/

/-- C1 (code_bug): the spec requires `plot_speed_distribution` to keep a
record exactly when its quantized cell satisfies
`0 <= cx < width and 0 <= cy < height` and to drop every record outside
`[x_min, x_max) x [y_min, y_max)`.  The source's bounds check
`x < 0 and x >= matrix_x and y < 0 and y >= matrix_y` is an unsatisfiable
conjunction, so it never drops anything: here a vehicle record at
`x = -3/2 < x_min` (quantized cell `cx = -1`, outside the grid) is not
dropped but accumulated into cell `(2, 4)` through numpy's negative-index
wraparound, contradicting both "dropped" and "never indexed outside its
fixed dimensions". -/
theorem c1_out_of_range_record_contributes :
    pyInt (boxC1.x - 0) = -1
    ∧ ¬ (0 ≤ pyInt (boxC1.x - 0) ∧ pyInt (boxC1.x - 0) < 5)
    ∧ Except.map (fun s => (s (2, 4)).2)
        (plot_speed_distribution (V := ℝ)
          (fun b => Real.sqrt (speedSq b : ℝ)) dbC1 id
          (0, 5, 0, 5) ["a.db"] none).2
      = .ok 1 :=
  ⟨by decide, by decide, rfl⟩

/-- C2 (confirmed): for a group (one folder's `.db` files, with
duplicate-free processed names and — as the dataset guarantees — track
tokens not shared across distinct files), every track with at least one
frame in the group yields a `plot_mean_speed_distribution` row whose value
is the arithmetic mean over that track's group frames of
`sqrt(vx^2 + vy^2 + vz^2)`; conversely every row of the folder run comes
from a track with at least one group frame and carries that mean (positive
divisor, so no `0/0` NaN; speeds are real square roots of nonnegative
rationals, never NaN). -/
theorem c2_group_mean_speed_per_track (db : String → DbFile)
    (folder : String) (files : List String)
    (rows : List (String × String × ℝ))
    (h1 : (files.filter endsWithDb).Nodup)
    (h2 : ∀ n1 ∈ files.filter endsWithDb, ∀ n2 ∈ files.filter endsWithDb,
      n1 ≠ n2 → ∀ t : String, 0 < (trackBoxes (db n1).boxes t).length →
        trackBoxes (db n2).boxes t = [])
    (hrun : meanFileLoop (V := ℝ) (fun b => Real.sqrt (speedSq b : ℝ))
      db folder [] files = .ok rows) :
    (∀ t : String, 0 < (trackBoxes (groupBoxes db files) t).length →
      ∃ c, (∃ n ∈ files.filter endsWithDb, resolveCat (db n) t = some c)
        ∧ (folder, c,
            ((trackBoxes (groupBoxes db files) t).map
              (fun b => Real.sqrt (speedSq b : ℝ))).sum
              / ((trackBoxes (groupBoxes db files) t).length : ℝ)) ∈ rows)
    ∧ (∀ r ∈ rows, r.1 = folder
        ∧ ∃ t, 0 < (trackBoxes (groupBoxes db files) t).length
          ∧ (∃ n ∈ files.filter endsWithDb, resolveCat (db n) t = some r.2.1)
          ∧ r.2.2 = ((trackBoxes (groupBoxes db files) t).map
              (fun b => Real.sqrt (speedSq b : ℝ))).sum
              / ((trackBoxes (groupBoxes db files) t).length : ℝ)) := by
  obtain ⟨char1, char2⟩ := meanFileLoop_char
    (fun b => Real.sqrt (speedSq b : ℝ)) db folder files [] rows hrun
  constructor
  · intro t ht
    obtain ⟨b, hb, hbt⟩ := (trackBoxes_pos_iff (groupBoxes db files) t).mp ht
    obtain ⟨n, hn, hnb⟩ := mem_groupBoxes.mp hb
    have hposn : 0 < (trackBoxes (db n).boxes t).length :=
      (trackBoxes_pos_iff (db n).boxes t).mpr ⟨b, hnb, hbt⟩
    have heq := trackBoxes_group_single files h1 h2 n t hn hposn
    obtain ⟨fr, hfr⟩ := char1 n hn
    obtain ⟨c, hc, hmem⟩ := meanRowsLoop_mem_of_mem
      (fun b => Real.sqrt (speedSq b : ℝ)) folder (db n)
      (distinctTracks (db n).boxes) fr hfr t
      ((mem_distinctTracks_iff (db n).boxes t).mpr hposn)
    refine ⟨c, ⟨n, hn, hc⟩, ?_⟩
    rw [heq, char2]
    exact Or.inr ⟨n, hn, fr, hfr, hmem⟩
  · intro r hr
    rcases (char2 r).mp hr with hra | ⟨n, hn, fr, hfr, hrf⟩
    · exact absurd hra (List.not_mem_nil r)
    · obtain ⟨h1r, t, htm, hres, hval⟩ := meanRowsLoop_mem_inv
        (fun b => Real.sqrt (speedSq b : ℝ)) folder (db n)
        (distinctTracks (db n).boxes) fr hfr r hrf
      have hposn := (mem_distinctTracks_iff (db n).boxes t).mp htm
      have heq := trackBoxes_group_single files h1 h2 n t hn hposn
      refine ⟨h1r, t, ?_, ⟨n, hn, hres⟩, ?_⟩
      · rw [heq]
        exact hposn
      · rw [heq]
        exact hval



/-- Witness for C2 at a concrete two-file group: `a.db` holds track `t1`
with two frames (speeds 5 and 0), `b.db` holds track `t2` with one frame. -/
theorem c2_group_mean_speed_per_track_witness :
    (["a.db", "b.db"].filter endsWithDb).Nodup
    ∧ (∀ n1 ∈ ["a.db", "b.db"].filter endsWithDb,
        ∀ n2 ∈ ["a.db", "b.db"].filter endsWithDb,
        n1 ≠ n2 → ∀ t : String,
          0 < (trackBoxes (dbC2g n1).boxes t).length →
          trackBoxes (dbC2g n2).boxes t = [])
    ∧ meanFileLoop (V := ℝ) (fun b => Real.sqrt (speedSq b : ℝ))
        dbC2g "loc" [] ["a.db", "b.db"]
      = .ok [("loc", "vehicle",
            ((trackBoxes fileC2.boxes "t1").map
              (fun b => Real.sqrt (speedSq b : ℝ))).sum
              / ((trackBoxes fileC2.boxes "t1").length : ℝ)),
          ("loc", "vehicle",
            ((trackBoxes fileC2b.boxes "t2").map
              (fun b => Real.sqrt (speedSq b : ℝ))).sum
              / ((trackBoxes fileC2b.boxes "t2").length : ℝ))]
    ∧ (0 < (trackBoxes (groupBoxes dbC2g ["a.db", "b.db"]) "t1").length
      ∧ ∃ c, (∃ n ∈ ["a.db", "b.db"].filter endsWithDb,
            resolveCat (dbC2g n) "t1" = some c)
        ∧ ("loc", c,
            ((trackBoxes (groupBoxes dbC2g ["a.db", "b.db"]) "t1").map
              (fun b => Real.sqrt (speedSq b : ℝ))).sum
              / ((trackBoxes
                  (groupBoxes dbC2g ["a.db", "b.db"]) "t1").length : ℝ))
          ∈ [("loc", "vehicle",
              ((trackBoxes fileC2.boxes "t1").map
                (fun b => Real.sqrt (speedSq b : ℝ))).sum
                / ((trackBoxes fileC2.boxes "t1").length : ℝ)),
            ("loc", "vehicle",
              ((trackBoxes fileC2b.boxes "t2").map
                (fun b => Real.sqrt (speedSq b : ℝ))).sum
                / ((trackBoxes fileC2b.boxes "t2").length : ℝ))]) := by
  have hdisj : ∀ n1 ∈ ["a.db", "b.db"].filter endsWithDb,
      ∀ n2 ∈ ["a.db", "b.db"].filter endsWithDb,
      n1 ≠ n2 → ∀ t : String,
        0 < (trackBoxes (dbC2g n1).boxes t).length →
        trackBoxes (dbC2g n2).boxes t = [] := by
    intro n1 hn1 n2 hn2 hne t hpos
    rw [show ["a.db", "b.db"].filter endsWithDb = ["a.db", "b.db"] from rfl]
      at hn1 hn2
    simp only [List.mem_cons, List.not_mem_nil, or_false] at hn1 hn2
    rcases hn1 with rfl | rfl <;> rcases hn2 with rfl | rfl
    · exact absurd rfl hne
    · rw [show dbC2g "a.db" = fileC2 from rfl] at hpos
      obtain ⟨b, hb, hbt⟩ := (trackBoxes_pos_iff fileC2.boxes t).mp hpos
      have ht : t = "t1" := by
        rcases List.mem_cons.mp hb with rfl | hb2
        · exact hbt.symm
        · rcases List.mem_cons.mp hb2 with rfl | hb3
          · exact hbt.symm
          · exact absurd hb3 (List.not_mem_nil b)
      subst ht
      rfl
    · rw [show dbC2g "b.db" = fileC2b from rfl] at hpos
      obtain ⟨b, hb, hbt⟩ := (trackBoxes_pos_iff fileC2b.boxes t).mp hpos
      have ht : t = "t2" := by
        rcases List.mem_cons.mp hb with rfl | hb2
        · exact hbt.symm
        · exact absurd hb2 (List.not_mem_nil b)
      subst ht
      rfl
    · exact absurd rfl hne
  have hrun : meanFileLoop (V := ℝ) (fun b => Real.sqrt (speedSq b : ℝ))
      dbC2g "loc" [] ["a.db", "b.db"]
      = .ok [("loc", "vehicle",
            ((trackBoxes fileC2.boxes "t1").map
              (fun b => Real.sqrt (speedSq b : ℝ))).sum
              / ((trackBoxes fileC2.boxes "t1").length : ℝ)),
          ("loc", "vehicle",
            ((trackBoxes fileC2b.boxes "t2").map
              (fun b => Real.sqrt (speedSq b : ℝ))).sum
              / ((trackBoxes fileC2b.boxes "t2").length : ℝ))] := rfl
  have h := c2_group_mean_speed_per_track dbC2g "loc" ["a.db", "b.db"] _
    (by decide) hdisj hrun
  exact ⟨by decide, hdisj, hrun, by decide, h.1 "t1" (by decide)⟩

/-- C4 (confirmed): on an input containing a record whose track id is
missing from the track dict (or whose category token is missing from the
category dict) — both cases make `resolveCat` return `none` — every
aggregation fails rather than skipping the record: the `plot_trajectories`
collection raises exactly KeyError, the speed-grid accumulation cannot
return a grid, and the mean-speed rows raise exactly KeyError.  No partial
output omitting the record is produced (the `Except` result carries no
rows). -/
theorem c4_unresolved_track_is_fatal {V : Type} [DivisionRing V]
    (sp : LidarBox → V) (f : DbFile) (b : LidarBox)
    (hb : b ∈ f.boxes) (hr : resolveCat f b.track_token = none) :
    trajRowsFile f f.boxes = .error .keyError
    ∧ (∀ (x_min y_min : ℚ) (mx my : ℕ) (s t : GridState V),
        gridFold sp x_min y_min mx my f s f.boxes ≠ .ok t)
    ∧ (∀ folder : String,
        meanSpeedRows sp folder f = .error .keyError) := by
  refine ⟨trajRowsFile_unresolved f f.boxes b hb hr,
    fun x_min y_min mx my s t =>
      gridFold_unresolved sp x_min y_min mx my f f.boxes b hb hr s t,
    fun folder => ?_⟩
  exact meanRowsLoop_unresolved sp folder f (distinctTracks f.boxes)
    b.track_token (List.mem_dedup.mpr (List.mem_map_of_mem _ hb)) hr

/-- Witness for C4 at a concrete file: the box with the dangling track token
is present, unresolvable, and all three aggregations fail. -/
theorem c4_unresolved_track_is_fatal_witness :
    (⟨"ghost", 0, 0, 0, 0, 0, 0⟩ : LidarBox) ∈ fileC4.boxes
    ∧ resolveCat fileC4 "ghost" = none
    ∧ trajRowsFile fileC4 fileC4.boxes = .error .keyError
    ∧ gridFold (V := ℚ) speedSq 0 0 5 5 fileC4 (gridInit ℚ) fileC4.boxes
        ≠ .ok (gridInit ℚ)
    ∧ meanSpeedRows (V := ℚ) speedSq "loc" fileC4 = .error .keyError := by
  have h := c4_unresolved_track_is_fatal (V := ℚ) speedSq fileC4
    ⟨"ghost", 0, 0, 0, 0, 0, 0⟩ (by decide) (by decide)
  exact ⟨by decide, by decide, h.1, h.2.1 0 0 5 5 (gridInit ℚ) (gridInit ℚ),
    h.2.2 "loc"⟩

/-- C3 (counterexample): the claim says the sum of the per-category counts of
`plot_class_proportion` over the requested categories equals the number of
distinct tracks of the whole group whose resolved category is requested.  In
this two-file group the row is overwritten per file
(`df_proportion.loc[folder][category] = len(...)`), so the final counts
`[1, 0, 0, 0]` reflect only the last `.db` file, while the group has three
vehicle tracks. -/
theorem c3_counterexample :
    folderRow dbC3 dynamic_category none ["a.db", "b.db"]
      = .ok (some [1, 0, 0, 0])
    ∧ specGroupCount dbC3 dynamic_category ["a.db", "b.db"] = 3
    ∧ ([1, 0, 0, 0] : List ℕ).sum ≠ 3 :=
  ⟨rfl, by decide, by decide⟩

/-- Dividing a row of counts by a zero row sum yields NaN everywhere. -/
theorem map_pyDiv_zero (counts : List ℕ) :
    counts.map (fun (c : ℕ) => pyDiv (c : ℚ) ((0 : ℕ) : ℚ))
      = List.replicate counts.length none := by
  induction counts with
  | nil => rfl
  | cons c cs ih =>
    rw [List.map_cons, List.length_cons, List.replicate_succ, ih]
    congr 1

/-- C5 (confirmed): a record's cell is the floor of its offset from the map
origin — `int()` truncation agrees with the floor for records inside the
boundary: a record exactly at `(x_min, y_min)` has offset `0` (cell
`(0, 0)`), a record at `x_max - eps` (with `0 < eps <= 1` and integral width
`mx >= 1`) quantizes to the last cell `mx - 1`; and the concrete scenario:
with `mapBoundary = (0, 10, 0, 10)` and a single vehicle record at `(5, 5)`
with velocity `(3, 4, 0)`, the finalized grid holds
`5.0 = sqrt(9 + 16)` at cell `(5, 5)` and is undefined (NaN, here `none`)
at every other cell. -/
theorem c5_cell_quantization :
    (∀ q : ℚ, pyInt (q - q) = 0)
    ∧ (∀ (x_min ε : ℚ) (mx : ℕ), 0 < ε → ε ≤ 1 → 1 ≤ mx →
        pyInt ((x_min + (mx : ℚ) - ε) - x_min) = (mx : ℤ) - 1)
    ∧ (∀ p : ℕ × ℕ,
        Except.map (fun s => finalizeGrid s p)
          (plot_speed_distribution (V := ℝ)
            (fun b => Real.sqrt (speedSq b : ℝ)) dbC5 id
            (0, 10, 0, 10) ["a.db"] none).2
        = .ok (if p = (5, 5) then some 5 else none)) := by
  refine ⟨fun q => ?_, fun x_min ε mx h1 h2 h3 => ?_, fun p => ?_⟩
  · rw [sub_self, pyInt_eq_floor le_rfl, Int.floor_zero]
  · have hmx : (1 : ℚ) ≤ (mx : ℚ) := by exact_mod_cast h3
    have hq : (x_min + (mx : ℚ) - ε) - x_min = (mx : ℚ) - ε := by ring
    rw [hq, pyInt_eq_floor (by linarith)]
    rw [Int.floor_eq_iff]
    constructor
    · push_cast
      linarith
    · push_cast
      linarith
  · rw [show (plot_speed_distribution (V := ℝ)
        (fun b => Real.sqrt (speedSq b : ℝ)) dbC5 id
        (0, 10, 0, 10) ["a.db"] none).2
      = .ok (Function.update (gridInit ℝ) ((5 : ℕ), (5 : ℕ))
          ((gridInit ℝ (5, 5)).1
              + (fun b => Real.sqrt (speedSq b : ℝ)) boxC5,
           (gridInit ℝ (5, 5)).2 + 1)) from rfl]
    simp only [Except.map]
    by_cases hp : p = (5, 5)
    · subst hp
      rw [if_pos rfl]
      simp only [finalizeGrid, finalizeCell, Function.update_same, gridInit]
      rw [if_neg (by norm_num)]
      congr 1
      rw [zero_add]
      have h25 : ((speedSq boxC5 : ℚ) : ℝ) = (5 : ℝ) ^ 2 := by
        norm_num [speedSq, boxC5]
      rw [h25, Real.sqrt_sq (by norm_num : (0 : ℝ) ≤ 5)]
      norm_num
    · rw [if_neg hp]
      simp only [finalizeGrid, finalizeCell, Function.update_noteq hp, gridInit]
      rfl

/-- Witness for C5 at concrete inputs: origin offset `0`, last cell for
`x_max - 1/2` on a width-10 grid, and the `(5, 5)` cell of the concrete
scenario. -/
theorem c5_cell_quantization_witness :
    pyInt ((3 : ℚ) - 3) = 0
    ∧ ((0 : ℚ) < 1/2 ∧ (1/2 : ℚ) ≤ 1 ∧ 1 ≤ (10 : ℕ)
        ∧ pyInt (((3 : ℚ) + ((10 : ℕ) : ℚ) - 1/2) - 3) = ((10 : ℕ) : ℤ) - 1)
    ∧ Except.map (fun s => finalizeGrid s ((5 : ℕ), (5 : ℕ)))
        (plot_speed_distribution (V := ℝ)
          (fun b => Real.sqrt (speedSq b : ℝ)) dbC5 id
          (0, 10, 0, 10) ["a.db"] none).2
      = .ok (if ((5 : ℕ), (5 : ℕ)) = ((5 : ℕ), (5 : ℕ)) then some 5 else none) := by
  have h := c5_cell_quantization
  exact ⟨h.1 3,
    ⟨by norm_num, by norm_num, by norm_num,
      h.2.1 3 (1/2) 10 (by norm_num) (by norm_num) (by norm_num)⟩,
    h.2.2 (5, 5)⟩

/-- C6 (confirmed): division by zero never aborts an aggregation.  The
proportion normalization `df.div(row_sum)` of a row of counts with zero sum
is a total function producing an undefined (NaN, here `none`) value in every
cell instead of failing; and in any grid produced by
`plot_speed_distribution`, a cell with zero count has zero accumulated sum
(so the `/=` finalization computes `0/0 = NaN`, modelled `none`) rather than
raising an error or producing a spurious number. -/
theorem c6_division_by_zero_tolerated {V : Type} [DivisionRing V]
    (sp : LidarBox → V) (db : String → DbFile)
    (shuffle : List String → List String) (mb : ℚ × ℚ × ℚ × ℚ)
    (files : List String) (proportion : Option ℚ) (s : GridState V)
    (h : (plot_speed_distribution sp db shuffle mb files proportion).2
      = .ok s) :
    (∀ counts : List ℕ, counts.sum = 0 →
      rowNormalize counts = List.replicate counts.length none)
    ∧ (∀ p, (s p).2 = 0 → (s p).1 = 0 ∧ finalizeGrid s p = none) := by
  constructor
  · intro counts hsum
    rw [rowNormalize, hsum]
    exact map_pyDiv_zero counts
  · simp only [plot_speed_distribution] at h
    by_cases hdim : pyInt (mb.2.1 - mb.1) < 0 ∨ pyInt (mb.2.2.2 - mb.2.2.1) < 0
    · rw [if_pos hdim] at h
      exact absurd h (by simp)
    · rw [if_neg hdim] at h
      have hinv := speedLoop_zero_inv sp db mb.1 mb.2.2.1
        (pyInt (mb.2.1 - mb.1)).toNat (pyInt (mb.2.2.2 - mb.2.2.1)).toNat
        ((proportion.map fun p => pyInt (((shuffle files).length : ℚ) * p)))
        (shuffle files) (gridInit V) 0 s h (fun _ _ => rfl)
      intro p hp
      refine ⟨hinv p hp, ?_⟩
      rw [finalizeGrid, finalizeCell, if_pos hp]

/-- Witness for C6: a completed empty run, a zero-sum row, and a zero-count
cell. -/
theorem c6_division_by_zero_tolerated_witness :
    (plot_speed_distribution (V := ℚ) speedSq dbEmpty id
        (0, 5, 0, 5) [] none).2 = .ok (gridInit ℚ)
    ∧ rowNormalize [0, 0] = List.replicate ([0, 0] : List ℕ).length none
    ∧ ((gridInit ℚ (0, 0)).1 = 0
        ∧ finalizeGrid (gridInit ℚ) (0, 0) = none) := by
  have h := c6_division_by_zero_tolerated (V := ℚ) speedSq dbEmpty id
    (0, 5, 0, 5) [] none (gridInit ℚ) rfl
  exact ⟨rfl, h.1 [0, 0] (by decide), h.2 (0, 0) rfl⟩

/-- C7 (counterexample): the claim says any map boundary with non-positive
width fails with an InvalidBoundary error before any accumulation.  The code
has no such check: with `x_min = x_max = 0` (width `0`) and no files, the
call completes successfully with the empty grid. -/
theorem c7_counterexample :
    pyInt ((0 : ℚ) - 0) = 0
    ∧ (plot_speed_distribution (V := ℝ)
        (fun b => Real.sqrt (speedSq b : ℝ)) dbEmpty id
        (0, 0, 0, 5) [] none).2 = .ok (gridInit ℝ) :=
  ⟨by decide, rfl⟩

/-- C7 (corrected, amended claim): `plot_speed_distribution` computes
`matrix_x = int(x_max - x_min)` and `matrix_y = int(y_max - y_min)` —
truncations that agree with the claimed floors whenever `x_max >= x_min` and
`y_max >= y_min` — but performs no InvalidBoundary check: a negative
dimension fails with numpy's ValueError from `np.zeros` before any
accumulation (and before the shuffle, leaving the caller's list untouched),
while a zero dimension does not fail upfront — the failure, if any, is an
IndexError at the first accumulated vehicle record. -/
theorem c7_truncated_dims_no_boundary_check {V : Type} [AddCommMonoid V]
    (sp : LidarBox → V) (db : String → DbFile)
    (shuffle : List String → List String) (files : List String)
    (proportion : Option ℚ) (mbA mbB : ℚ × ℚ × ℚ × ℚ)
    (hA1 : mbA.1 ≤ mbA.2.1) (hA2 : mbA.2.2.1 ≤ mbA.2.2.2)
    (hB : pyInt (mbB.2.1 - mbB.1) < 0 ∨ pyInt (mbB.2.2.2 - mbB.2.2.1) < 0) :
    (pyInt (mbA.2.1 - mbA.1) = ⌊mbA.2.1 - mbA.1⌋
      ∧ pyInt (mbA.2.2.2 - mbA.2.2.1) = ⌊mbA.2.2.2 - mbA.2.2.1⌋)
    ∧ plot_speed_distribution sp db shuffle mbB files proportion
        = (files, .error .valueError)
    ∧ (plot_speed_distribution (V := ℚ) speedSq dbC7 id (0, 0, 0, 5)
        ["a.db"] none).2 = .error .indexError := by
  refine ⟨⟨pyInt_eq_floor (sub_nonneg.mpr hA1),
    pyInt_eq_floor (sub_nonneg.mpr hA2)⟩, ?_, rfl⟩
  simp only [plot_speed_distribution]
  rw [if_pos hB]

/-- Witness for C7 at concrete boundaries: a valid one for the floor
equalities and a negative-width one for the ValueError. -/
theorem c7_truncated_dims_no_boundary_check_witness :
    ((0 : ℚ), (10 : ℚ), (2 : ℚ), (7 : ℚ)).1 ≤ (0, 10, 2, 7).2.1
    ∧ (pyInt (((0 : ℚ), (10 : ℚ), (2 : ℚ), (7 : ℚ)).2.1 - (0, 10, 2, 7).1)
        = ⌊((0 : ℚ), (10 : ℚ), (2 : ℚ), (7 : ℚ)).2.1 - (0, 10, 2, 7).1⌋
      ∧ pyInt (((0 : ℚ), (10 : ℚ), (2 : ℚ), (7 : ℚ)).2.2.2 - (0, 10, 2, 7).2.2.1)
        = ⌊((0 : ℚ), (10 : ℚ), (2 : ℚ), (7 : ℚ)).2.2.2 - (0, 10, 2, 7).2.2.1⌋)
    ∧ plot_speed_distribution (V := ℚ) speedSq dbEmpty id (0, -1, 0, 5)
        ["a.db"] none = (["a.db"], .error .valueError)
    ∧ (plot_speed_distribution (V := ℚ) speedSq dbC7 id (0, 0, 0, 5)
        ["a.db"] none).2 = .error .indexError := by
  have h := c7_truncated_dims_no_boundary_check (V := ℚ) speedSq dbEmpty id
    ["a.db"] none (0, 10, 2, 7) (0, -1, 0, 5) (by decide) (by decide)
    (by decide)
  exact ⟨by decide, h.1, h.2.1, h.2.2⟩

/-- C8 (counterexample): the claim says every aggregation is a pure function
of its input with no hidden state.  `plot_speed_distribution` shuffles the
file list with the global RNG and, when `proportion` is given, processes only
a prefix: the same arguments under two RNG outcomes (`id` and
`List.reverse`, both permutations of the caller's list) produce different
grids, so the output is not a function of the explicit input. -/
theorem c8_counterexample :
    (List.reverse ["a.db", "b.db"]).Perm ["a.db", "b.db"]
    ∧ Except.map (fun s => (s (0, 0)).2)
        (plot_speed_distribution (V := ℚ) speedSq dbC8 id
          (0, 3, 0, 3) ["a.db", "b.db"] (some (1/2))).2
      ≠ Except.map (fun s => (s (0, 0)).2)
          (plot_speed_distribution (V := ℚ) speedSq dbC8 List.reverse
            (0, 3, 0, 3) ["a.db", "b.db"] (some (1/2))).2 :=
  ⟨by decide, fun h => by
    have h1 : (Except.ok 1 : Except PyErr ℕ) = Except.ok 0 := h
    exact one_ne_zero (Except.ok.inj h1)⟩

/-- C8 (corrected, amended claim): aggregation over a fixed record multiset
is deterministic, but the entry points are not pure functions of their
explicit arguments: `plot_speed_distribution` consumes the global RNG
through `np.random.shuffle` and, when `proportion` is given, processes an
RNG-dependent subset (see the counterexample).  What does hold: with
`proportion = None` the accumulated grid is independent of the shuffle
outcome — any two permutations of the file list that both complete yield
the same grid, because the grid is a per-cell sum over the multiset of
processed records. -/
theorem c8_grid_independent_of_shuffle {V : Type} [AddCommMonoid V]
    (sp : LidarBox → V) (db : String → DbFile)
    (shuffle1 shuffle2 : List String → List String) (mb : ℚ × ℚ × ℚ × ℚ)
    (files : List String) (s1 s2 : GridState V)
    (hperm : (shuffle1 files).Perm (shuffle2 files))
    (h1 : (plot_speed_distribution sp db shuffle1 mb files none).2 = .ok s1)
    (h2 : (plot_speed_distribution sp db shuffle2 mb files none).2 = .ok s2) :
    s1 = s2 := by
  simp only [plot_speed_distribution] at h1 h2
  by_cases hdim : pyInt (mb.2.1 - mb.1) < 0 ∨ pyInt (mb.2.2.2 - mb.2.2.1) < 0
  · rw [if_pos hdim] at h1
    exact absurd h1 (by simp)
  · rw [if_neg hdim] at h1 h2
    funext p
    have e1 := speedLoopNone_char sp db mb.1 mb.2.2.1
      (pyInt (mb.2.1 - mb.1)).toNat (pyInt (mb.2.2.2 - mb.2.2.1)).toNat
      (shuffle1 files) (gridInit V) s1 0 h1 p
    have e2 := speedLoopNone_char sp db mb.1 mb.2.2.1
      (pyInt (mb.2.1 - mb.1)).toNat (pyInt (mb.2.2.2 - mb.2.2.1)).toNat
      (shuffle2 files) (gridInit V) s2 0 h2 p
    rw [e1, e2]
    have hflt := hperm.filter endsWithDb
    simp only [Prod.mk.injEq]
    constructor
    · rw [(hflt.map _).sum_eq]
    · rw [(hflt.map _).sum_eq]

/-- Witness for the amended C8: two permuted runs that both complete and
agree. -/
theorem c8_grid_independent_of_shuffle_witness :
    (id ["a.db", "b.db"] : List String).Perm (List.reverse ["a.db", "b.db"])
    ∧ (plot_speed_distribution (V := ℚ) speedSq dbEmpty id (0, 5, 0, 5)
        ["a.db", "b.db"] none).2 = .ok (gridInit ℚ)
    ∧ (plot_speed_distribution (V := ℚ) speedSq dbEmpty List.reverse
        (0, 5, 0, 5) ["a.db", "b.db"] none).2 = .ok (gridInit ℚ)
    ∧ gridInit ℚ = gridInit ℚ := by
  refine ⟨by decide, rfl, rfl, ?_⟩
  exact c8_grid_independent_of_shuffle (V := ℚ) speedSq dbEmpty id
    List.reverse (0, 5, 0, 5) ["a.db", "b.db"] (gridInit ℚ) (gridInit ℚ)
    (by decide) rfl rfl

/-- C9 (confirmed): the final state of the caller's file list(s).
`plot_speed_distribution` calls `np.random.shuffle(trajectory_files)`
unconditionally (line 207), so the caller's list is reordered on every call
that reaches the loop, even with `proportion = None`; `plot_trajectories`
and `plot_class_proportion` shuffle the caller's list(s) in place exactly
when `proportion` is not `None`.  The in-place mutation is modelled by the
first component of each embedded function's result, which is the state of
the caller's list after the call. -/
theorem c9_shuffle_mutates_caller_lists {V : Type} [AddCommMonoid V]
    (sp : LidarBox → V) (db : String → DbFile)
    (db2 : String → String → DbFile) (shuffle : List String → List String)
    (mb : ℚ × ℚ × ℚ × ℚ) (files : List String) (folders : List String)
    (filesLists : List (List String))
    (hx : 0 ≤ pyInt (mb.2.1 - mb.1)) (hy : 0 ≤ pyInt (mb.2.2.2 - mb.2.2.1)) :
    (∀ proportion : Option ℚ,
      (plot_speed_distribution sp db shuffle mb files proportion).1
        = shuffle files)
    ∧ (plot_trajectories db shuffle files none).1 = files
    ∧ (∀ p : ℚ, (plot_trajectories db shuffle files (some p)).1 = shuffle files)
    ∧ (plot_class_proportion db2 shuffle folders filesLists none).1 = filesLists
    ∧ (∀ p : ℚ,
      (plot_class_proportion db2 shuffle folders filesLists (some p)).1
        = filesLists.map shuffle) := by
  refine ⟨fun proportion => ?_, rfl, fun p => rfl, rfl, fun p => rfl⟩
  simp only [plot_speed_distribution]
  rw [if_neg (not_or.mpr ⟨not_lt.mpr hx, not_lt.mpr hy⟩)]

/-- Witness for C9 at concrete arguments. -/
theorem c9_shuffle_mutates_caller_lists_witness :
    0 ≤ pyInt (((0 : ℚ), (10 : ℚ), (0 : ℚ), (10 : ℚ)).2.1 - (0, 10, 0, 10).1)
    ∧ (plot_speed_distribution (V := ℚ) speedSq dbEmpty List.reverse
        (0, 10, 0, 10) ["a.db", "b.db"] none).1 = List.reverse ["a.db", "b.db"]
    ∧ (plot_trajectories dbEmpty List.reverse ["a.db", "b.db"] none).1
        = ["a.db", "b.db"]
    ∧ (plot_trajectories dbEmpty List.reverse ["a.db", "b.db"] (some 1)).1
        = List.reverse ["a.db", "b.db"]
    ∧ (plot_class_proportion (fun _ _ => ⟨[], [], []⟩) List.reverse ["f"]
        [["a.db", "b.db"]] none).1 = [["a.db", "b.db"]]
    ∧ (plot_class_proportion (fun _ _ => ⟨[], [], []⟩) List.reverse ["f"]
        [["a.db", "b.db"]] (some 1)).1
        = [["a.db", "b.db"]].map List.reverse := by
  have h := c9_shuffle_mutates_caller_lists (V := ℚ) speedSq dbEmpty
    (fun _ _ => ⟨[], [], []⟩) List.reverse (0, 10, 0, 10) ["a.db", "b.db"]
    ["f"] [["a.db", "b.db"]] (by decide) (by decide)
  exact ⟨by decide, h.1 none, h.2.1, h.2.2.1 1, h.2.2.2.1, h.2.2.2.2 1⟩

/-- C10 (confirmed): in every file-list loop of the module
(`plot_trajectories`, `plot_class_proportion`, `plot_mean_speed_distribution`,
`plot_speed_distribution`), an entry whose name does not end in ".db" is
silently skipped: deleting it from the list leaves the loop's result
unchanged, so it contributes nothing, raises nothing and is not reported. -/
theorem c10_non_db_entries_skipped {V W : Type} [AddCommMonoid V]
    [DivisionRing W] (sp : LidarBox → V) (spw : LidarBox → W)
    (db : String → DbFile) (bad : String) (hbad : endsWithDb bad = false) :
    (∀ (l1 l2 : List String) (acc : List (ℚ × ℚ × String)),
      trajLoop db acc (l1 ++ bad :: l2) = trajLoop db acc (l1 ++ l2))
    ∧ (∀ (cats : List String) (l1 l2 : List String) (r : Option (List ℕ)),
      folderRow db cats r (l1 ++ bad :: l2) = folderRow db cats r (l1 ++ l2))
    ∧ (∀ (folder : String) (l1 l2 : List String)
        (acc : List (String × String × W)),
      meanFileLoop spw db folder acc (l1 ++ bad :: l2)
        = meanFileLoop spw db folder acc (l1 ++ l2))
    ∧ (∀ (x_min y_min : ℚ) (mx my : ℕ) (maxIter : Option ℤ)
        (s : GridState V) (cnt : ℤ) (l1 l2 : List String),
      speedLoop sp db x_min y_min mx my maxIter s cnt (l1 ++ bad :: l2)
        = speedLoop sp db x_min y_min mx my maxIter s cnt (l1 ++ l2)) :=
  ⟨fun l1 l2 acc => trajLoop_skip db bad hbad l1 l2 acc,
   fun cats l1 l2 r => folderRow_skip db cats bad hbad l1 l2 r,
   fun folder l1 l2 acc => meanFileLoop_skip spw db folder bad hbad l1 l2 acc,
   fun x_min y_min mx my maxIter s cnt l1 l2 =>
     speedLoop_skip sp db x_min y_min mx my maxIter bad hbad l1 l2 s cnt⟩

/-- Witness for C10 at a concrete non-`.db` name and file list. -/
theorem c10_non_db_entries_skipped_witness :
    endsWithDb "notes.txt" = false
    ∧ trajLoop dbEmpty [] ([] ++ "notes.txt" :: ["a.db"])
        = trajLoop dbEmpty [] ([] ++ ["a.db"])
    ∧ folderRow dbEmpty dynamic_category none ([] ++ "notes.txt" :: ["a.db"])
        = folderRow dbEmpty dynamic_category none ([] ++ ["a.db"])
    ∧ meanFileLoop (V := ℚ) speedSq dbEmpty "loc" []
        ([] ++ "notes.txt" :: ["a.db"])
        = meanFileLoop (V := ℚ) speedSq dbEmpty "loc" [] ([] ++ ["a.db"])
    ∧ speedLoop (V := ℚ) speedSq dbEmpty 0 0 5 5 none (gridInit ℚ) 0
        ([] ++ "notes.txt" :: ["a.db"])
        = speedLoop (V := ℚ) speedSq dbEmpty 0 0 5 5 none (gridInit ℚ) 0
          ([] ++ ["a.db"]) := by
  have h := c10_non_db_entries_skipped (V := ℚ) (W := ℚ) speedSq speedSq
    dbEmpty "notes.txt" (by decide)
  exact ⟨by decide, h.1 [] ["a.db"] [], h.2.1 dynamic_category [] ["a.db"] none,
    h.2.2.1 "loc" [] ["a.db"] [], h.2.2.2 0 0 5 5 none (gridInit ℚ) 0 [] ["a.db"]⟩

/-- A successful dict lookup returns a binding present in the list. -/
theorem dictGet_mem {l : List (String × String)} {k v : String}
    (h : dictGet l k = some v) : (k, v) ∈ l := by
  cases hfind : l.reverse.find? (fun pr => pr.1 == k) with
  | none => rw [dictGet, hfind] at h; exact absurd h (by simp)
  | some pr =>
    rw [dictGet, hfind] at h
    have hk : pr.1 = k := by
      have := List.find?_some hfind
      exact of_decide_eq_true this
    have hv : pr.2 = v := Option.some.inj h
    have hmem : pr ∈ l := List.mem_reverse.mp (List.mem_of_find?_eq_some hfind)
    rw [← hk, ← hv]
    exact hmem

/-- With duplicate-free keys, every binding is found by the dict lookup. -/
theorem mem_dictGet {l : List (String × String)} {k v : String}
    (hkeys : (l.map (fun pr => pr.1)).Nodup) (h : (k, v) ∈ l) :
    dictGet l k = some v := by
  cases hfind : l.reverse.find? (fun pr => pr.1 == k) with
  | none =>
    have := List.find?_eq_none.mp hfind (k, v) (List.mem_reverse.mpr h)
    simp at this
  | some pr =>
    rw [dictGet, hfind]
    have hk : pr.1 = k := by
      have := List.find?_some hfind
      exact of_decide_eq_true this
    have hmem : pr ∈ l := List.mem_reverse.mp (List.mem_of_find?_eq_some hfind)
    have : pr = (k, v) := by
      apply List.inj_on_of_nodup_map hkeys hmem h
      rw [hk]
    rw [this]
    rfl

/-- A successful name-to-token lookup returns a binding of the category
table. -/
theorem dictNameToken_mem {catNames : List (String × String)}
    {name tok : String} (h : dictNameToken catNames name = some tok) :
    (tok, name) ∈ catNames := by
  cases hfind : (catNames.map (fun pr => (pr.2, pr.1))).reverse.find?
      (fun pr => pr.1 == name) with
  | none => rw [dictNameToken, hfind] at h; exact absurd h (by simp)
  | some pr =>
    rw [dictNameToken, hfind] at h
    have hk : pr.1 = name := by
      have := List.find?_some hfind
      exact of_decide_eq_true this
    have hv : pr.2 = tok := Option.some.inj h
    have hmem : pr ∈ catNames.map (fun pr => (pr.2, pr.1)) :=
      List.mem_reverse.mp (List.mem_of_find?_eq_some hfind)
    obtain ⟨q, hq, hqe⟩ := List.mem_map.mp hmem
    have : q = (tok, name) := by
      rw [← hk, ← hv, ← hqe]
    rw [← this]
    exact hq



/-- With duplicate-free tokens and names in the category table, the
token-filter count of `plot_class_proportion` equals the number of tracks
resolving to the requested category name. -/
theorem countCat_spec {f : DbFile} {c : String} {n : ℕ}
    (htok : (f.catNames.map (fun pr => pr.1)).Nodup)
    (hname : (f.catNames.map (fun pr => pr.2)).Nodup)
    (h : countCat f c = .ok n) : n = specCountCat f c := by
  cases hdict : dictNameToken f.catNames c with
  | none => rw [countCat, hdict] at h; exact absurd h (by simp)
  | some tok =>
    rw [countCat, hdict] at h
    have hn := Except.ok.inj h
    have hmem : (tok, c) ∈ f.catNames := dictNameToken_mem hdict
    rw [← hn]
    simp only [specCountCat]
    congr 1
    apply List.filter_congr
    intro tr htr
    by_cases he : tr.2 = tok
    · rw [he]
      have hres : trackResolvedCat f tr = some c := by
        rw [trackResolvedCat, he]
        exact mem_dictGet htok hmem
      rw [hres]
      simp
    · have h1 : (tr.2 == tok) = false := by simp [he]
      rw [h1]
      cases hres : trackResolvedCat f tr with
      | none => simp
      | some d =>
        by_cases hd : d = c
        · subst hd
          have hmem2 : (tr.2, d) ∈ f.catNames := dictGet_mem hres
          have heq : (tr.2, d) = (tok, d) :=
            List.inj_on_of_nodup_map hname hmem2 hmem rfl
          exact absurd (congrArg Prod.fst heq) he
        · simp [hd]

/-- Splitting a filter over a pointwise-disjoint disjunction of
predicates. -/
theorem length_filter_or {α : Type} (p q : α → Bool) :
    ∀ l : List α, (∀ a ∈ l, ¬(p a = true ∧ q a = true)) →
      (l.filter (fun a => p a || q a)).length
        = (l.filter p).length + (l.filter q).length := by
  intro l
  induction l with
  | nil => intro h; rfl
  | cons a as ih =>
    intro h
    have hd := h a (List.mem_cons_self a as)
    have ht : ∀ b ∈ as, ¬(p b = true ∧ q b = true) :=
      fun b hb => h b (List.mem_cons_of_mem a hb)
    by_cases hpa : p a = true
    · have hqa : q a = false := by
        cases hq : q a
        · rfl
        · exact absurd ⟨hpa, hq⟩ hd
      rw [List.filter_cons_of_pos (by rw [hpa, Bool.true_or]),
        List.filter_cons_of_pos hpa,
        List.filter_cons_of_neg (by rw [hqa]; exact Bool.false_ne_true)]
      simp only [List.length_cons, ih ht]
      omega
    · have hpa2 : p a = false := Bool.eq_false_iff.mpr hpa
      by_cases hqa : q a = true
      · rw [List.filter_cons_of_pos (by rw [hpa2, hqa, Bool.false_or]),
          List.filter_cons_of_neg (by rw [hpa2]; exact Bool.false_ne_true),
          List.filter_cons_of_pos hqa]
        simp only [List.length_cons, ih ht]
        omega
      · have hqa2 : q a = false := Bool.eq_false_iff.mpr hqa
        rw [List.filter_cons_of_neg (by rw [hpa2, hqa2]; simp),
          List.filter_cons_of_neg (by rw [hpa2]; exact Bool.false_ne_true),
          List.filter_cons_of_neg (by rw [hqa2]; exact Bool.false_ne_true)]
        exact ih ht

/-- Membership in the requested set splits off its head category. -/
theorem resolvedIn_cons (f : DbFile) (c : String) (cs : List String)
    (tr : String × String) :
    resolvedIn f (c :: cs) tr
      = ((trackResolvedCat f tr == some c) || resolvedIn f cs tr) := by
  cases hres : trackResolvedCat f tr with
  | none => simp [resolvedIn, hres]
  | some d =>
    simp only [resolvedIn, hres, List.contains_cons]
    by_cases hdc : d = c
    · subst hdc
      simp
    · simp [hdc]



/-- For duplicate-free requested categories (and a well-formed category
table), the per-file counts of `plot_class_proportion` sum to the number of
the file's tracks whose resolved category is in the requested set. -/
theorem catsCounts_sum {f : DbFile}
    (htok : (f.catNames.map (fun pr => pr.1)).Nodup)
    (hname : (f.catNames.map (fun pr => pr.2)).Nodup) :
    ∀ (cats : List String) (counts : List ℕ), cats.Nodup →
      catsCounts f cats = .ok counts →
      counts.sum = (f.tracks.filter (resolvedIn f cats)).length := by
  intro cats
  induction cats with
  | nil =>
    intro counts hnd h
    simp only [catsCounts] at h
    rw [← Except.ok.inj h, List.sum_nil]
    have hnil : f.tracks.filter (resolvedIn f []) = [] :=
      List.filter_eq_nil_iff.mpr (fun tr _ => by
        cases hres : trackResolvedCat f tr <;> simp [resolvedIn, hres])
    rw [hnil]
    rfl
  | cons c cs ih =>
    intro counts hnd h
    simp only [catsCounts] at h
    cases hcc : countCat f c with
    | error e => rw [hcc] at h; exact absurd h (by simp)
    | ok n =>
      rw [hcc] at h
      cases hrest : catsCounts f cs with
      | error e => rw [hrest] at h; simp at h
      | ok ns =>
        rw [hrest] at h
        simp only at h
        rw [← Except.ok.inj h, List.sum_cons]
        have hn := countCat_spec htok hname hcc
        have hns := ih ns (List.Nodup.of_cons hnd) hrest
        have hc_not : c ∉ cs := (List.nodup_cons.mp hnd).1
        have hsplit : (f.tracks.filter (resolvedIn f (c :: cs))).length
            = specCountCat f c + (f.tracks.filter (resolvedIn f cs)).length := by
          rw [List.filter_congr (fun tr _ => resolvedIn_cons f c cs tr)]
          rw [length_filter_or _ _ f.tracks ?_]
          · rfl
          · intro tr _ hboth
            obtain ⟨h1, h2⟩ := hboth
            have hres : trackResolvedCat f tr = some c := eq_of_beq h1
            rw [resolvedIn, hres] at h2
            have : c ∈ cs := by
              simpa using h2
            exact hc_not this
        rw [hsplit, hn, hns]

/-- The folder row of `plot_class_proportion` after the file loop is the
initial row when the subset has no `.db` file, and otherwise exactly the
counts of the LAST `.db` file processed. -/
theorem folderRow_last (db : String → DbFile) (cats : List String) :
    ∀ (files : List String) (r0 res : Option (List ℕ)),
      folderRow db cats r0 files = .ok res →
      (files.filter endsWithDb = [] ∧ res = r0)
      ∨ (∃ n, (files.filter endsWithDb).getLast? = some n
          ∧ ∃ counts, catsCounts (db n) cats = .ok counts
            ∧ res = some counts) := by
  intro files
  induction files with
  | nil =>
    intro r0 res h
    simp only [folderRow] at h
    exact Or.inl ⟨rfl, (Except.ok.inj h).symm⟩
  | cons n ns ih =>
    intro r0 res h
    simp only [folderRow] at h
    by_cases hdb : endsWithDb n = true
    · rw [if_pos hdb] at h
      cases hcc : catsCounts (db n) cats with
      | error e => rw [hcc] at h; exact absurd h (by simp)
      | ok counts =>
        simp only [hcc] at h
        rcases ih (some counts) res h with ⟨hemp, hres⟩ |
          ⟨m, hlast, cs, hcs, hres⟩
        · refine Or.inr ⟨n, ?_, counts, hcc, hres⟩
          rw [List.filter_cons_of_pos hdb, hemp]
          rfl
        · refine Or.inr ⟨m, ?_, cs, hcs, hres⟩
          rw [List.filter_cons_of_pos hdb]
          cases hfe : ns.filter endsWithDb with
          | nil => rw [hfe] at hlast; exact absurd hlast (by simp)
          | cons x xs =>
            rw [hfe] at hlast
            rw [List.getLast?_cons_cons]
            exact hlast
    · rw [if_neg hdb] at h
      rcases ih r0 res h with h1 | h2
      · exact Or.inl ⟨by rw [List.filter_cons_of_neg hdb]; exact h1.1, h1.2⟩
      · refine Or.inr ?_
        rw [List.filter_cons_of_neg hdb]
        exact h2

/-- C3 (corrected, amended claim): the stored row of `plot_class_proportion`
for a folder reflects only the LAST processed `.db` file (each file's counts
overwrite the row), so the group-wide equality of the original claim fails
for multi-file groups (see the counterexample).  What does hold: per file
(with pairwise-distinct tokens and names in its category table, as in the
dataset), each requested category's count equals the number of distinct
tracks of that file resolving to it; for duplicate-free requested
categories the counts sum to the number of the file's tracks whose resolved
category is in the requested set; and the folder's final row is exactly the
last `.db` file's counts (or the initial NaN row when the subset has no
`.db` file). -/
theorem c3_last_file_category_counts :
    (∀ (f : DbFile) (c : String) (n : ℕ),
      (f.catNames.map (fun pr => pr.1)).Nodup →
      (f.catNames.map (fun pr => pr.2)).Nodup →
      countCat f c = .ok n → n = specCountCat f c)
    ∧ (∀ (f : DbFile) (cats : List String) (counts : List ℕ),
      (f.catNames.map (fun pr => pr.1)).Nodup →
      (f.catNames.map (fun pr => pr.2)).Nodup → cats.Nodup →
      catsCounts f cats = .ok counts →
      counts.sum = (f.tracks.filter (resolvedIn f cats)).length)
    ∧ (∀ (db : String → DbFile) (cats : List String) (files : List String)
        (r0 res : Option (List ℕ)),
      folderRow db cats r0 files = .ok res →
      (files.filter endsWithDb = [] ∧ res = r0)
      ∨ (∃ n, (files.filter endsWithDb).getLast? = some n
          ∧ ∃ counts, catsCounts (db n) cats = .ok counts
            ∧ res = some counts)) :=
  ⟨fun _ _ _ htok hname h => countCat_spec htok hname h,
   fun _ cats counts htok hname hnd h =>
     catsCounts_sum htok hname cats counts hnd h,
   fun db cats files r0 res h => folderRow_last db cats files r0 res h⟩

/-- Witness for the amended C3 at the concrete two-file group of the
counterexample. -/
theorem c3_last_file_category_counts_witness :
    ((fileB3.catNames.map (fun pr => pr.1)).Nodup
      ∧ (fileB3.catNames.map (fun pr => pr.2)).Nodup
      ∧ dynamic_category.Nodup)
    ∧ (countCat fileB3 "vehicle" = .ok 1 ∧ 1 = specCountCat fileB3 "vehicle")
    ∧ (catsCounts fileB3 dynamic_category = .ok [1, 0, 0, 0]
      ∧ ([1, 0, 0, 0] : List ℕ).sum
          = (fileB3.tracks.filter (resolvedIn fileB3 dynamic_category)).length)
    ∧ (folderRow dbC3 dynamic_category none ["a.db", "b.db"]
        = .ok (some [1, 0, 0, 0])
      ∧ ((["a.db", "b.db"].filter endsWithDb = []
            ∧ (some [1, 0, 0, 0] : Option (List ℕ)) = none)
        ∨ (∃ n, (["a.db", "b.db"].filter endsWithDb).getLast? = some n
            ∧ ∃ counts, catsCounts (dbC3 n) dynamic_category = .ok counts
              ∧ (some [1, 0, 0, 0] : Option (List ℕ)) = some counts))) := by
  have h := c3_last_file_category_counts
  refine ⟨⟨by decide, by decide, by decide⟩, ⟨rfl, ?_⟩, ⟨rfl, ?_⟩, ⟨rfl, ?_⟩⟩
  · exact h.1 fileB3 "vehicle" 1 (by decide) (by decide) rfl
  · exact h.2.1 fileB3 dynamic_category [1, 0, 0, 0] (by decide) (by decide)
      (by decide) rfl
  · exact h.2.2 dbC3 dynamic_category ["a.db", "b.db"] none
      (some [1, 0, 0, 0]) rfl

end Nuplan
